import Mathlib

/-
Verification of the lintje commit validator (src/commit.rs, src/git.rs)
against its natural-language specification.

Text is modelled as `List Char` (one entry per Unicode scalar value, as in
Rust's `str::chars()`).  Byte offsets are recovered through `Char.utf8Size`.
The files utils.rs, rule.rs and issue.rs of the repository are not part of
the sources provided; the definitions taken from them are modelled from the
specification and are marked as such in their doc comments.
-/

namespace Lintje

/-! ## Text metrics (utils.rs, modelled from the spec) -/

/-- Modelled from the spec: wide characters (CJK scripts, full-width forms)
have display width 2.  The concrete ranges cover the common wide blocks. -/
def isWideScript (c : Char) : Bool :=
  let v := c.val.toNat
  (0x1100 ≤ v && v ≤ 0x115F) ||
  (0x2E80 ≤ v && v ≤ 0x303E) ||
  (0x3041 ≤ v && v ≤ 0x33FF) ||
  (0x3400 ≤ v && v ≤ 0x4DBF) ||
  (0x4E00 ≤ v && v ≤ 0x9FFF) ||
  (0xA000 ≤ v && v ≤ 0xA4CF) ||
  (0xAC00 ≤ v && v ≤ 0xD7A3) ||
  (0xF900 ≤ v && v ≤ 0xFAFF) ||
  (0xFE30 ≤ v && v ≤ 0xFE4F) ||
  (0xFF00 ≤ v && v ≤ 0xFF60) ||
  (0xFFE0 ≤ v && v ≤ 0xFFE6)

/-- Modelled from the spec: most emoji have display width 2, but emoji made
from ASCII code points are excluded (measured as width 1). -/
def isEmojiNonAscii (c : Char) : Bool :=
  let v := c.val.toNat
  (0x1F000 ≤ v && v ≤ 0x1FAFF) ||
  (0x2600 ≤ v && v ≤ 0x27BF) ||
  (0x2B00 ≤ v && v ≤ 0x2BFF) ||
  (v = 0x2139) || (0x2190 ≤ v && v ≤ 0x21FF && v = 0x21A9)

/-- Modelled from the spec (section 4.1): display width of one character,
1 for ordinary characters, 2 for wide scripts and most emoji. -/
def charWidth (c : Char) : Nat :=
  if isWideScript c || isEmojiNonAscii c then 2 else 1

/-- Modelled from the spec: `display_width(text)` sums per-character widths. -/
def display_width (s : List Char) : Nat :=
  (s.map charWidth).sum

/-- UTF-8 byte length of a character sequence (Rust `str::len`). -/
def utf8Len (s : List Char) : Nat :=
  (s.map Char.utf8Size).sum

/-- Modelled from the spec: `character_count_for_bytes_index` returns the
1-based count of characters preceding the given byte offset. -/
def characterCountForBytesIndexGo (byteIndex : Nat) : List Char → Nat → Nat → Nat
  | [], _, count => count + 1
  | c :: rest, cum, count =>
      if cum + c.utf8Size ≤ byteIndex then
        characterCountForBytesIndexGo byteIndex rest (cum + c.utf8Size) (count + 1)
      else
        count + 1

/-- Modelled from the spec: 1-based character count preceding a byte offset. -/
def character_count_for_bytes_index (s : List Char) (byteIndex : Nat) : Nat :=
  characterCountForBytesIndexGo byteIndex s 0 0

/-- Line statistics at a width limit (spec section 3, LineStats). -/
structure LineStats where
  bytes_index : Nat
  char_count : Nat
  deriving Repr, DecidableEq

/-- Modelled from the spec: scan characters left to right accumulating display
width; record the byte offset and character count at the point the cumulative
width first exceeds the limit; if it never does, the offset is the byte length
of the line (and the count its character count). -/
def lineLengthStatsGo (limit : Nat) :
    List Char → Nat → Nat → Nat → Option (Nat × Nat) → Nat × LineStats
  | [], accW, accB, accC, found =>
      match found with
      | some (b, k) => (accW, ⟨b, k⟩)
      | none => (accW, ⟨accB, accC⟩)
  | c :: rest, accW, accB, accC, found =>
      let w := accW + charWidth c
      let found' :=
        match found with
        | some f => some f
        | none => if limit < w then some (accB, accC) else none
      lineLengthStatsGo limit rest w (accB + c.utf8Size) (accC + 1) found'

/-- Modelled from the spec: `line_length_stats(line, limit)`. -/
def line_length_stats (line : List Char) (limit : Nat) : Nat × LineStats :=
  lineLengthStatsGo limit line 0 0 0 none

/-- Modelled from the spec: punctuation test used by SubjectPunctuation
(approximated by the ASCII punctuation classes). -/
def is_punctuation (c : Char) : Bool :=
  let v := c.val.toNat
  (0x21 ≤ v && v ≤ 0x2F) || (0x3A ≤ v && v ≤ 0x40) ||
  (0x5B ≤ v && v ≤ 0x60) || (0x7B ≤ v && v ≤ 0x7E)

/-! ## Character classes and basic string operations -/

/-- Rust regex `\w` word character (ASCII approximation). -/
def isWordChar (c : Char) : Bool :=
  c.isAlphanum || c = '_'

/-- Rust `char::to_lowercase` (ASCII approximation, as in `Char.toLower`). -/
def toLowerList (s : List Char) : List Char :=
  s.map Char.toLower

/-- Rust `str::trim_end`: remove trailing whitespace characters. -/
def trimEnd (s : List Char) : List Char :=
  (s.reverse.dropWhile Char.isWhitespace).reverse

/-- Rust `str::trim_start`: remove leading whitespace characters. -/
def trimStart (s : List Char) : List Char :=
  s.dropWhile Char.isWhitespace

/-- Rust `str::trim`: remove whitespace at both ends. -/
def trimBoth (s : List Char) : List Char :=
  trimEnd (trimStart s)

/-- Split a character list inclusively at newline characters; each segment
keeps its terminating newline (Rust `str::split_inclusive('\n')`). -/
def splitInclusiveNl : List Char → List (List Char)
  | [] => []
  | c :: rest =>
      if c = '\n' then [c] :: splitInclusiveNl rest
      else
        match splitInclusiveNl rest with
        | [] => [[c]]
        | l :: ls => (c :: l) :: ls

/-- Rust `str::lines`: split at newlines, the final line ending optional,
a trailing carriage return of a newline-terminated line removed. -/
def rustLines (s : List Char) : List (List Char) :=
  (splitInclusiveNl s).map fun l =>
    match l.reverse with
    | '\n' :: r =>
        match r with
        | '\r' :: r' => r'.reverse
        | _ => r.reverse
    | _ => l

/-- Take a prefix spanning exactly `n` UTF-8 bytes; `none` when the string is
shorter than `n` bytes or byte `n` is not a character boundary
(Rust `str::get(0..n)`). -/
def byteTake (n : Nat) : List Char → Option (List Char)
  | [] => if n = 0 then some [] else none
  | c :: rest =>
      if n = 0 then some []
      else if c.utf8Size ≤ n then
        (byteTake (n - c.utf8Size) rest).map (c :: ·)
      else none

/-- Decimal digits of a natural number, with explicit fuel for structural
recursion. -/
def natCharsAux : Nat → Nat → List Char
  | 0, _ => []
  | fuel + 1, n =>
      if n < 10 then [Char.ofNat (48 + n)]
      else natCharsAux fuel (n / 10) ++ [Char.ofNat (48 + n % 10)]

/-- Decimal rendering of a natural number (as Rust `format!` renders it). -/
def natChars (n : Nat) : List Char :=
  natCharsAux (n + 1) n

/-! ## Rule catalog (rule.rs, modelled from the spec) -/

/-- Modelled from the spec: the closed set of rule identifiers. -/
inductive Rule where
  | MergeCommit
  | NeedsRebase
  | SubjectCliche
  | SubjectLength
  | SubjectMood
  | SubjectWhitespace
  | SubjectCapitalization
  | SubjectPunctuation
  | SubjectTicketNumber
  | SubjectPrefix
  | SubjectBuildTag
  | MessageEmptyFirstLine
  | MessagePresence
  | MessageLineLength
  | MessageTicketNumber
  | DiffPresence
  | BranchNameTicketNumber
  | BranchNameCliche
  deriving Repr, DecidableEq

/-- Modelled from the spec: stable lookup name of each rule. -/
def ruleName : Rule → List Char
  | .MergeCommit => ("MergeCommit").data
  | .NeedsRebase => ("NeedsRebase").data
  | .SubjectCliche => ("SubjectCliche").data
  | .SubjectLength => ("SubjectLength").data
  | .SubjectMood => ("SubjectMood").data
  | .SubjectWhitespace => ("SubjectWhitespace").data
  | .SubjectCapitalization => ("SubjectCapitalization").data
  | .SubjectPunctuation => ("SubjectPunctuation").data
  | .SubjectTicketNumber => ("SubjectTicketNumber").data
  | .SubjectPrefix => ("SubjectPrefix").data
  | .SubjectBuildTag => ("SubjectBuildTag").data
  | .MessageEmptyFirstLine => ("MessageEmptyFirstLine").data
  | .MessagePresence => ("MessagePresence").data
  | .MessageLineLength => ("MessageLineLength").data
  | .MessageTicketNumber => ("MessageTicketNumber").data
  | .DiffPresence => ("DiffPresence").data
  | .BranchNameTicketNumber => ("BranchNameTicketNumber").data
  | .BranchNameCliche => ("BranchNameCliche").data

/-- The full rule catalog as a list. -/
def allRules : List Rule :=
  [.MergeCommit, .NeedsRebase, .SubjectCliche, .SubjectLength, .SubjectMood,
   .SubjectWhitespace, .SubjectCapitalization, .SubjectPunctuation,
   .SubjectTicketNumber, .SubjectPrefix, .SubjectBuildTag,
   .MessageEmptyFirstLine, .MessagePresence, .MessageLineLength,
   .MessageTicketNumber, .DiffPresence, .BranchNameTicketNumber,
   .BranchNameCliche]

/-- Modelled from the spec: `rule_by_name` is an exact, case-sensitive match
against each rule's canonical name. -/
def rule_by_name (name : List Char) : Option Rule :=
  allRules.find? fun r => ruleName r = name

/-! ## Diagnostic model (issue.rs, modelled from the spec) -/

/-- Modelled from the spec: issue severity. -/
inductive IssueType where
  | error
  | hint
  deriving Repr, DecidableEq

/-- Modelled from the spec: position of an issue. -/
inductive Position where
  | subject (line column : Nat)
  | messageLine (line column : Nat)
  | branch (line column : Nat)
  | diff
  deriving Repr, DecidableEq

/-- Modelled from the spec: the kind of a context line. -/
inductive ContextKind where
  | plainSubject
  | subjectError
  | plainMessageLine
  | messageLineError
  | messageLineAddition
  | diffError
  deriving Repr, DecidableEq

/-- Modelled from the spec: one rendered source line attached to an issue,
with optional line number, optional highlighted byte range, optional note. -/
structure Context where
  kind : ContextKind
  line : Option Nat
  text : List Char
  range : Option (Nat × Nat)
  note : Option (List Char)
  deriving Repr, DecidableEq

/-- Modelled from the spec: a plain subject context line. -/
def Context.subject (text : List Char) : Context :=
  ⟨.plainSubject, none, text, none, none⟩

/-- Modelled from the spec: a highlighted subject error span. -/
def Context.subject_error (text : List Char) (range : Nat × Nat)
    (note : List Char) : Context :=
  ⟨.subjectError, none, text, some range, some note⟩

/-- Modelled from the spec: a plain message line with its line number. -/
def Context.message_line (line : Nat) (text : List Char) : Context :=
  ⟨.plainMessageLine, some line, text, none, none⟩

/-- Modelled from the spec: a highlighted message error span. -/
def Context.message_line_error (line : Nat) (text : List Char)
    (range : Nat × Nat) (note : List Char) : Context :=
  ⟨.messageLineError, some line, text, some range, some note⟩

/-- Modelled from the spec: a suggested-addition span in the message body. -/
def Context.message_line_addition (line : Nat) (text : List Char)
    (range : Nat × Nat) (note : List Char) : Context :=
  ⟨.messageLineAddition, some line, text, some range, some note⟩

/-- Modelled from the spec: a highlighted diff-scope error span. -/
def Context.diff_error (text : List Char) (range : Nat × Nat)
    (note : List Char) : Context :=
  ⟨.diffError, none, text, some range, some note⟩

/-- Modelled from the spec: one diagnostic issue. -/
structure Issue where
  rule : Rule
  type : IssueType
  message : List Char
  position : Position
  context : List Context
  deriving Repr, DecidableEq

/-- Modelled from the spec: construct an Error-severity issue. -/
def Issue.error (rule : Rule) (message : List Char) (position : Position)
    (context : List Context) : Issue :=
  ⟨rule, .error, message, position, context⟩

/-- Modelled from the spec: construct a Hint-severity issue. -/
def Issue.hint (rule : Rule) (message : List Char) (position : Position)
    (context : List Context) : Issue :=
  ⟨rule, .hint, message, position, context⟩

end Lintje

namespace Lintje

/-! ## Regex matchers of commit.rs, as executable decision procedures

Each definition mirrors one of the `lazy_static` regexes at the top of
src/commit.rs under the leftmost-first match semantics of the Rust regex
crate; `.` never matches a newline, and `^`/`$` anchor to the whole
haystack (multi-line mode is never enabled by these patterns). -/

/-- Tail of `SUBJECT_WITH_MERGE_REMOTE_BRANCH`: at least one non-newline
character remains (`.+` with no end anchor). -/
def mergeRemotePart3 : List Char → Bool
  | c :: _ => c ≠ '\n'
  | [] => false

/-- After at least one `.` character: find `" into "` followed by the final
`.+`, the characters skipped over being non-newline. -/
def mergeRemotePart2Rest : List Char → Bool
  | [] => false
  | c :: rest =>
      ((" into ").data.isPrefixOf (c :: rest) &&
        mergeRemotePart3 ((c :: rest).drop 6)) ||
      (c ≠ '\n' && mergeRemotePart2Rest rest)

/-- The `.+ into .+` part of `SUBJECT_WITH_MERGE_REMOTE_BRANCH`. -/
def mergeRemotePart2 : List Char → Bool
  | [] => false
  | c :: rest => c ≠ '\n' && mergeRemotePart2Rest rest

/-- After at least one `.` character: find `"' of "` followed by the rest of
the pattern, the characters skipped over being non-newline. -/
def mergeRemotePart1Rest : List Char → Bool
  | [] => false
  | c :: rest =>
      (("' of ").data.isPrefixOf (c :: rest) &&
        mergeRemotePart2 ((c :: rest).drop 5)) ||
      (c ≠ '\n' && mergeRemotePart1Rest rest)

/-- The `.+' of .+ into .+` part of `SUBJECT_WITH_MERGE_REMOTE_BRANCH`. -/
def mergeRemotePart1 : List Char → Bool
  | [] => false
  | c :: rest => c ≠ '\n' && mergeRemotePart1Rest rest

/-- Regex `^Merge branch '.+' of .+ into .+` (`SUBJECT_WITH_MERGE_REMOTE_BRANCH`). -/
def subjectWithMergeRemoteBranch (s : List Char) : Bool :=
  ("Merge branch '").data.isPrefixOf s && mergeRemotePart1 (s.drop 14)

/-- Character class `[\w\(\)/!]` of the subject prefix regex. -/
def prefixClassChar (c : Char) : Bool :=
  isWordChar c || c = '(' || c = ')' || c = '/' || c = '!'

/-- Regex `^([\w\(\)/!]+:)\s.*`: capture group 1 when the subject starts with
a conventional-commit-style marker; the class run is maximal because `:` is
not in the class. -/
def subjectPrefixCapture (s : List Char) : Option (List Char) :=
  let run := s.takeWhile prefixClassChar
  if run = [] then none
  else
    match s.drop run.length with
    | ':' :: c :: _ => if c.isWhitespace then some (run ++ [':']) else none
    | _ => none

/-- Regex `^[\p{Emoji}--\p{Ascii}]` (`SUBJECT_STARTS_WITH_EMOJI`): the match
is the first character when it is a non-ASCII emoji. -/
def subjectEmojiCapture (s : List Char) : Option Char :=
  match s with
  | c :: _ => if isEmojiNonAscii c then some c else none
  | [] => none

/-- Match of `[A-Z]{2,}-\d+` at the head of the list: a maximal run of at
least two uppercase letters, a dash, at least one digit. -/
def ticketMatchAt (t : List Char) : Option (List Char) :=
  let u := t.takeWhile fun c => 'A' ≤ c && c ≤ 'Z'
  if 2 ≤ u.length then
    match t.drop u.length with
    | '-' :: rest =>
        let d := rest.takeWhile Char.isDigit
        if d = [] then none else some (u ++ '-' :: d)
    | _ => none
  else none

/-- Leftmost match of `SUBJECT_WITH_TICKET` (`[A-Z]{2,}-\d+`): byte offset of
the match start and the matched characters. -/
def ticketFindGo : List Char → Nat → Option (Nat × List Char)
  | [], _ => none
  | c :: rest, bytePos =>
      match ticketMatchAt (c :: rest) with
      | some m => some (bytePos, m)
      | none => ticketFindGo rest (bytePos + c.utf8Size)

/-- Leftmost match of `SUBJECT_WITH_TICKET` in a string. -/
def ticketFind (s : List Char) : Option (Nat × List Char) :=
  ticketFindGo s 0

/-- Character class `[\w\-_/]` of the ticket-reference regexes. -/
def wordDashChar (c : Char) : Bool :=
  isWordChar c || c = '-' || c = '_' || c = '/'

/-- Choose the split point for `([^\s]*[\w\-_/]+)?[#!]{1}\d+`: the number of
characters consumed by the optional group.  Backtracking tries the longest
`[^\s]*` first, so the largest viable split wins; the group may also be
empty.  Returns the index of the `#`/`!` character when a full match exists. -/
def refSplitPoint (r : List Char) : Option Nat :=
  let valid : Nat → Bool := fun q =>
    match r.drop q with
    | m :: d :: _ =>
        (m = '#' || m = '!') && d.isDigit &&
        (decide (q = 0) ||
          ((r.take q).all (fun c => !c.isWhitespace) &&
            (match (r.take q).reverse with
             | b :: _ => wordDashChar b
             | [] => false)))
    | _ => false
  ((List.range (r.length + 1)).reverse.find? valid)

/-- Characters consumed by `([^\s]*[\w\-_/]+)?[#!]{1}\d+` at the head of the
list, when it matches there. -/
def refTailLen (r : List Char) : Option Nat :=
  match refSplitPoint r with
  | none => none
  | some q =>
      let d := (r.drop (q + 1)).takeWhile Char.isDigit
      some (q + 1 + d.length)

/-- Keyword families of `CONTAINS_FIX_TICKET`, in regex alternation order;
each keyword is stored lowercase and only its first letter may also be
uppercase in the subject (`[fF]ix...` etc.). -/
def fixKeywords : List (List Char) :=
  [("fixes").data, ("fixed").data, ("fixing").data, ("fix").data,
   ("close").data, ("closes").data, ("closed").data, ("closing").data,
   ("resolve").data, ("resolves").data, ("resolved").data, ("resolving").data,
   ("implements").data, ("implemented").data, ("implementing").data,
   ("implement").data]

/-- Does `kw` (lowercase) match at the head of `t`, the first letter allowed
in either case and the remaining letters exact? -/
def kwHeadMatches (kw t : List Char) : Bool :=
  match kw, t with
  | k :: ks, c :: cs => (c = k || c = k.toUpper) && ks.isPrefixOf cs
  | [], _ => true
  | _, [] => false

/-- Characters consumed by `:? ([^\s]*[\w\-_/]+)?[#!]{1}\d+` at the head of
the list (the part of `CONTAINS_FIX_TICKET` after the keyword); the optional
colon branch is tried first. -/
def fixTicketCont (t : List Char) : Option Nat :=
  let space : List Char → Option Nat := fun u =>
    match u with
    | ' ' :: r => (refTailLen r).map (· + 1)
    | _ => none
  match t with
  | ':' :: r =>
      match space r with
      | some n => some (n + 1)
      | none => space t
  | _ => space t

/-- Match of `CONTAINS_FIX_TICKET` at the head of the list: number of
characters consumed, keyword alternatives tried in alternation order. -/
def fixTicketMatchAt (t : List Char) : Option Nat :=
  (fixKeywords.filterMap fun kw =>
    if kwHeadMatches kw t then
      (fixTicketCont (t.drop kw.length)).map (· + kw.length)
    else none).head?

/-- Leftmost match of `CONTAINS_FIX_TICKET`: byte offset of the match start
and the matched characters. -/
def fixTicketFindGo : List Char → Nat → Option (Nat × List Char)
  | [], _ => none
  | c :: rest, bytePos =>
      match fixTicketMatchAt (c :: rest) with
      | some n => some (bytePos, (c :: rest).take n)
      | none => fixTicketFindGo rest (bytePos + c.utf8Size)

/-- Leftmost match of `CONTAINS_FIX_TICKET` in a string. -/
def fixTicketFind (s : List Char) : Option (Nat × List Char) :=
  fixTicketFindGo s 0

/-- Case-insensitive prefix test (ASCII case folding). -/
def ciPrefix : List Char → List Char → Bool
  | [], _ => true
  | _ :: _, [] => false
  | p :: ps, c :: cs => p.toLower = c.toLower && ciPrefix ps cs

/-- Match of `LINK_TO_TICKET` (`(part of|related):? ...`, case-insensitive)
at the head of the list. -/
def linkTicketMatchAt (t : List Char) : Bool :=
  (ciPrefix ("part of").data t &&
    (fixTicketCont (t.drop 7)).isSome) ||
  (ciPrefix ("related").data t &&
    (fixTicketCont (t.drop 7)).isSome)

/-- Is there a match of `LINK_TO_TICKET` anywhere in the string? -/
def linkTicketIsMatch : List Char → Bool
  | [] => false
  | c :: rest => linkTicketMatchAt (c :: rest) || linkTicketIsMatch rest

/-- The cliché stems of `SUBJECT_WITH_CLICHE`, already lowercase. -/
def clicheKeywords : List (List Char) :=
  [("fix").data, ("fixes").data, ("fixed").data, ("fixing").data,
   ("add").data, ("adds").data, ("added").data, ("adding").data,
   ("update").data, ("updates").data, ("updated").data, ("updating").data,
   ("change").data, ("changes").data, ("changed").data, ("changing").data,
   ("remove").data, ("removes").data, ("removed").data, ("removing").data,
   ("delete").data, ("deletes").data, ("deleted").data, ("deleting").data]

/-- Regex `^(fix...|add...|(updat|chang|remov|delet)(e|es|ed|ing))(\s+\w+)?$`
(`SUBJECT_WITH_CLICHE`), applied to the lowercased subject: a cliché keyword,
optionally followed by whitespace and one further word, spanning the whole
string. -/
def subjectWithCliche (lc : List Char) : Bool :=
  clicheKeywords.any fun kw =>
    kw.isPrefixOf lc &&
      (let rest := lc.drop kw.length
       rest = [] ||
         (let ws := rest.takeWhile Char.isWhitespace
          let w := rest.drop ws.length
          !ws.isEmpty && !w.isEmpty && w.all isWordChar))

/-- Character class `[\w\s_-]` of the build-tag regex. -/
def buildTagClassChar (c : Char) : Bool :=
  isWordChar c || c.isWhitespace || c = '_' || c = '-'

/-- Case-insensitive equality of character lists (ASCII case folding). -/
def ciEq (a b : List Char) : Bool :=
  a.length = b.length && ciPrefix a b

/-- Match of `SUBJECT_WITH_BUILD_TAGS` at the head of the list: either
a bracketed `skip`/`no ci` tag or the literal `***NO_CI***`
(case-insensitive); returns the matched characters. -/
def buildTagMatchAt (t : List Char) : Option (List Char) :=
  match t with
  | '[' :: rest =>
      let run := rest.takeWhile buildTagClassChar
      match rest.drop run.length with
      | ']' :: _ =>
          if (ciPrefix ("skip ").data run && 5 < run.length) ||
             (ciPrefix (" skip").data (run.drop (run.length - 5)) &&
               5 < run.length) ||
             ciEq run ("no ci").data then
            some ('[' :: run ++ [']'])
          else none
      | _ => none
  | _ =>
      if ciPrefix ("***no_ci***").data t then
        some (t.take 11)
      else none

/-- Leftmost match of `SUBJECT_WITH_BUILD_TAGS`: byte offset of the match
start and the matched characters. -/
def buildTagFindGo : List Char → Nat → Option (Nat × List Char)
  | [], _ => none
  | c :: rest, bytePos =>
      match buildTagMatchAt (c :: rest) with
      | some m => some (bytePos, m)
      | none => buildTagFindGo rest (bytePos + c.utf8Size)

/-- Leftmost match of `SUBJECT_WITH_BUILD_TAGS` in a string. -/
def buildTagFind (s : List Char) : Option (Nat × List Char) :=
  buildTagFindGo s 0

/-- Regex `https?://\w+` (`URL_REGEX`): is there a bare URL token anywhere? -/
def urlIsMatch : List Char → Bool
  | [] => false
  | c :: rest =>
      (("http://").data.isPrefixOf (c :: rest) &&
        (match (c :: rest).drop 7 with
         | d :: _ => isWordChar d
         | [] => false)) ||
      (("https://").data.isPrefixOf (c :: rest) &&
        (match (c :: rest).drop 8 with
         | d :: _ => isWordChar d
         | [] => false)) ||
      urlIsMatch rest

/-- Regex `^\s*```\s*([\w]+)?$` (`CODE_BLOCK_LINE_WITH_LANGUAGE`). -/
def codeBlockLineWithLanguage (line : List Char) : Bool :=
  let t := line.dropWhile Char.isWhitespace
  ("```").data.isPrefixOf t &&
    (let u := (t.drop 3).dropWhile Char.isWhitespace
     u.all isWordChar)

/-- Regex `^\s*```$` (`CODE_BLOCK_LINE_END`). -/
def codeBlockLineEnd (line : List Char) : Bool :=
  line.dropWhile Char.isWhitespace = ("```").data

/-- The `MOOD_WORDS` list of src/commit.rs, in source order. -/
def MOOD_WORDS : List (List Char) :=
  [("fixed").data, ("fixes").data, ("fixing").data,
   ("solved").data, ("solves").data, ("solving").data,
   ("resolved").data, ("resolves").data, ("resolving").data,
   ("closed").data, ("closes").data, ("closing").data,
   ("added").data, ("adding").data,
   ("updated").data, ("updates").data, ("updating").data,
   ("removed").data, ("removes").data, ("removing").data,
   ("deleted").data, ("deletes").data, ("deleting").data,
   ("changed").data, ("changes").data, ("changing").data,
   ("moved").data, ("moves").data, ("moving").data,
   ("refactored").data, ("refactors").data, ("refactoring").data,
   ("checked").data, ("checks").data, ("checking").data,
   ("adjusted").data, ("adjusts").data, ("adjusting").data,
   ("tests").data, ("tested").data, ("testing").data]

end Lintje

namespace Lintje

/-! ## The Commit record (src/commit.rs) -/

/-- The Commit record of src/commit.rs. -/
structure Commit where
  long_sha : Option (List Char)
  short_sha : Option (List Char)
  email : Option (List Char)
  subject : List Char
  message : List Char
  has_changes : Bool
  issues : List Issue
  ignored : Bool
  ignored_rules : List Rule
  deriving Repr, DecidableEq

/-- `Commit::find_ignored_rules`: scan the message lines for the directive
prefix and resolve each trailing token through the rule catalog; unknown
names are only logged. -/
def findIgnoredRulesGo : List (List Char) → List Rule
  | [] => []
  | line :: rest =>
      if ("lintje:disable ").data.isPrefixOf line then
        match rule_by_name (line.drop 15) with
        | some r => r :: findIgnoredRulesGo rest
        | none => findIgnoredRulesGo rest
      else findIgnoredRulesGo rest

/-- `Commit::find_ignored_rules` over a message. -/
def find_ignored_rules (message : List Char) : List Rule :=
  findIgnoredRulesGo (rustLines message)

/-- `Commit::new`: derive the short SHA from the first 7 bytes of the long
SHA (`long.get(0..7)`), trim trailing whitespace from the subject, and
compute the ignored rules from the message. -/
def Commit.new (long_sha : Option (List Char)) (email : Option (List Char))
    (subject : List Char) (message : List Char) (has_changes : Bool) :
    Commit :=
  let short_sha :=
    match long_sha with
    | some long =>
        match byteTake 7 long with
        | some sha => some sha
        | none => none
    | none => none
  { long_sha := long_sha
    short_sha := short_sha
    email := email
    subject := trimEnd subject
    message := message
    has_changes := has_changes
    ignored := false
    ignored_rules := find_ignored_rules message
    issues := [] }

/-- `Commit::rule_ignored`. -/
def ruleIgnored (c : Commit) (r : Rule) : Bool :=
  c.ignored_rules.contains r

/-- `Commit::is_valid`. -/
def Commit.is_valid (c : Commit) : Bool :=
  c.issues.isEmpty

/-- `Commit::has_issue`. -/
def hasIssue (c : Commit) (r : Rule) : Bool :=
  c.issues.any fun issue => issue.rule = r

/-- Append the issues a check produces; every `validate_*` method of
src/commit.rs only pushes onto `self.issues`. -/
def pushIssues (f : Commit → List Issue) (c : Commit) : Commit :=
  { c with issues := c.issues ++ f c }

/-- Issues of `Commit::validate_merge_commit`. -/
def merge_commit_issues (c : Commit) : List Issue :=
  if ruleIgnored c .MergeCommit then []
  else if subjectWithMergeRemoteBranch c.subject then
    [Issue.error .MergeCommit ("A remote merge commit was found").data
      (.subject 1 1)
      [Context.subject_error c.subject (0, utf8Len c.subject)
        ("Rebase on the remote branch, rather than merging the remote branch into the local branch").data]]
  else []

/-- Issues of `Commit::validate_needs_rebase`. -/
def needs_rebase_issues (c : Commit) : List Issue :=
  if ruleIgnored c .NeedsRebase then []
  else if ("fixup! ").data.isPrefixOf c.subject then
    [Issue.error .NeedsRebase ("A fixup commit was found").data
      (.subject 1 1)
      [Context.subject_error c.subject (0, 6)
        ("Rebase fixup commits before pushing or merging").data]]
  else if ("squash! ").data.isPrefixOf c.subject then
    [Issue.error .NeedsRebase ("A squash commit was found").data
      (.subject 1 1)
      [Context.subject_error c.subject (0, 7)
        ("Rebase squash commits before pushing or merging").data]]
  else []

/-- Issues of `Commit::validate_subject_line_length`. -/
def subject_line_length_issues (c : Commit) : List Issue :=
  if ruleIgnored c .SubjectLength || hasIssue c .SubjectCliche then []
  else
    let ws := line_length_stats c.subject 50
    let width := ws.1
    let stats := ws.2
    if width = 0 then
      [Issue.error .SubjectLength ("The commit has no subject").data
        (.subject 1 1)
        [Context.subject_error c.subject (0, 1)
          ("Add a subject to describe the change").data]]
    else if 50 < width then
      [Issue.error .SubjectLength
        (("The subject of `").data ++ natChars width ++
          ("` characters wide is too long").data)
        (.subject 1 (stats.char_count + 1))
        [Context.subject_error c.subject
          (stats.bytes_index, utf8Len c.subject)
          ("Shorten the subject to a maximum width of 50 characters").data]]
    else if width < 5 then
      [Issue.error .SubjectLength
        (("The subject of `").data ++ natChars width ++
          ("` characters wide is too short").data)
        (.subject 1 1)
        [Context.subject_error c.subject (0, utf8Len c.subject)
          ("Describe the change in more detail").data]]
    else []

/-- Issues of `Commit::validate_subject_mood` (the first word of
`subject.split(' ')` always exists). -/
def subject_mood_issues (c : Commit) : List Issue :=
  if ruleIgnored c .SubjectMood then []
  else
    let word := toLowerList (c.subject.takeWhile fun ch => ch ≠ ' ')
    if MOOD_WORDS.contains word then
      [Issue.error .SubjectMood
        ("The subject does not use the imperative grammatical mood").data
        (.subject 1 1)
        [Context.subject_error c.subject (0, utf8Len word)
          ("Use the imperative mood for the subject").data]]
    else []

/-- Issues of `Commit::validate_subject_whitespace`. -/
def subject_whitespace_issues (c : Commit) : List Issue :=
  if ruleIgnored c .SubjectWhitespace then []
  else if c.subject.length = 0 && hasIssue c .SubjectLength then []
  else
    match c.subject with
    | ch :: _ =>
        if ch.isWhitespace then
          [Issue.error .SubjectWhitespace
            ("The subject starts with a whitespace character such as a space or a tab").data
            (.subject 1 1)
            [Context.subject_error c.subject (0, ch.utf8Size)
              ("Remove the leading whitespace from the subject").data]]
        else []
    | [] => []

/-- Issues of `Commit::validate_subject_capitalization`. -/
def subject_capitalization_issues (c : Commit) : List Issue :=
  if ruleIgnored c .SubjectCapitalization || hasIssue c .SubjectPrefix then []
  else if c.subject.length = 0 && hasIssue c .SubjectLength then []
  else
    match c.subject with
    | ch :: _ =>
        if ch.isLower then
          [Issue.error .SubjectCapitalization
            ("The subject does not start with a capital letter").data
            (.subject 1 1)
            [Context.subject_error c.subject (0, ch.utf8Size)
              ("Start the subject with a capital letter").data]]
        else []
    | [] => []

/-- Issues of `Commit::validate_subject_punctuation`: an emoji match at the
start, a punctuation character at the start, and a punctuation character at
the end each push one issue, in that order. -/
def subject_punctuation_issues (c : Commit) : List Issue :=
  if ruleIgnored c .SubjectPunctuation then []
  else if c.subject.length = 0 && hasIssue c .SubjectLength then []
  else
    (match subjectEmojiCapture c.subject with
     | some e =>
        [Issue.error .SubjectPunctuation
          ("The subject starts with an emoji").data
          (.subject 1 1)
          [Context.subject_error c.subject (0, e.utf8Size)
            ("Remove emoji from the start of the subject").data]]
     | none => []) ++
    (match c.subject with
     | ch :: _ =>
        if is_punctuation ch then
          [Issue.error .SubjectPunctuation
            (("The subject starts with a punctuation character: `").data ++
              [ch] ++ ("`").data)
            (.subject 1 1)
            [Context.subject_error c.subject (0, ch.utf8Size)
              ("Remove punctuation from the start of the subject").data]]
        else []
     | [] => []) ++
    (match c.subject.reverse with
     | ch :: _ =>
        if is_punctuation ch then
          [Issue.error .SubjectPunctuation
            (("The subject ends with a punctuation character: `").data ++
              [ch] ++ ("`").data)
            (.subject 1
              (character_count_for_bytes_index c.subject
                (utf8Len c.subject - ch.utf8Size)))
            [Context.subject_error c.subject
              (utf8Len c.subject - ch.utf8Size, utf8Len c.subject)
              ("Remove punctuation from the end of the subject").data]]
        else []
     | [] => [])

/-- `Commit::add_subject_ticket_number_error`: the issue built for one
ticket-number match in the subject. -/
def subjectTicketIssue (c : Commit) (byteStart : Nat) (matched : List Char) :
    Issue :=
  let lineCount := (rustLines c.message).length
  let baseLineCount := if lineCount = 0 then 3 else lineCount + 2
  Issue.error .SubjectTicketNumber
    ("The subject contains a ticket number").data
    (.subject 1 (character_count_for_bytes_index c.subject byteStart))
    [Context.subject_error c.subject (byteStart, byteStart + utf8Len matched)
      ("Remove the ticket number from the subject").data,
     Context.message_line baseLineCount [],
     Context.message_line_addition (baseLineCount + 1) matched
      (0, utf8Len matched)
      ("Move the ticket number to the message body").data]

/-- Issues of `Commit::validate_subject_ticket_numbers`: the bare project-key
pattern and the action-keyword pattern each report independently. -/
def subject_ticket_number_issues (c : Commit) : List Issue :=
  if ruleIgnored c .SubjectTicketNumber then []
  else
    (match ticketFind c.subject with
     | some (b, m) => [subjectTicketIssue c b m]
     | none => []) ++
    (match fixTicketFind c.subject with
     | some (b, m) => [subjectTicketIssue c b m]
     | none => [])

/-- Issues of `Commit::validate_subject_prefix`. -/
def subject_prefix_issues (c : Commit) : List Issue :=
  if ruleIgnored c .SubjectPrefix then []
  else
    match subjectPrefixCapture c.subject with
    | some cap =>
        [Issue.error .SubjectPrefix
          (("Remove the `").data ++ cap ++
            ("` prefix from the subject").data)
          (.subject 1 1)
          [Context.subject_error c.subject (0, utf8Len cap)
            ("Remove the prefix from the subject").data]]
    | none => []

/-- Issues of `Commit::validate_subject_build_tags`. -/
def subject_build_tag_issues (c : Commit) : List Issue :=
  if ruleIgnored c .SubjectBuildTag then []
  else
    match buildTagFind c.subject with
    | some (b, tag) =>
        let lineCount := (rustLines c.message).length
        let baseLineCount := if lineCount = 0 then 3 else lineCount + 2
        [Issue.error .SubjectBuildTag
          (("The `").data ++ tag ++
            ("` build tag was found in the subject").data)
          (.subject 1 (character_count_for_bytes_index c.subject b))
          [Context.subject_error c.subject (b, b + utf8Len tag)
            ("Remove the build tag from the subject").data,
           Context.message_line_addition baseLineCount tag (0, utf8Len tag)
            ("Move build tag to message body").data]]
    | none => []

/-- Issues of `Commit::validate_subject_cliches`. -/
def subject_cliche_issues (c : Commit) : List Issue :=
  if ruleIgnored c .SubjectCliche then []
  else
    let lc := toLowerList c.subject
    if (("wip ").data.isPrefixOf lc || lc = ("wip").data) ||
        subjectWithCliche lc then
      [Issue.error .SubjectCliche
        ("The subject does not explain the change in much detail").data
        (.subject 1 1)
        [Context.subject_error c.subject (0, utf8Len c.subject)
          ("Describe the change in more detail").data]]
    else []

/-- Issues of `Commit::validate_message_empty_first_line`. -/
def message_empty_first_line_issues (c : Commit) : List Issue :=
  if ruleIgnored c .MessageEmptyFirstLine then []
  else
    match rustLines c.message with
    | line :: _ =>
        if line.isEmpty then []
        else
          [Issue.error .MessageEmptyFirstLine
            ("No empty line found below the subject").data
            (.messageLine 2 1)
            [Context.subject c.subject,
             Context.message_line_error 2 line (0, utf8Len line)
              ("Add an empty line below the subject line").data]]
    | [] => []

/-- Issues of `Commit::validate_message_presence`. -/
def message_presence_issues (c : Commit) : List Issue :=
  if ruleIgnored c .MessagePresence then []
  else
    let m := trimBoth c.message
    let width := display_width m
    if width = 0 then
      [Issue.error .MessagePresence ("No message body was found").data
        (.messageLine 3 1)
        [Context.subject c.subject,
         Context.message_line 2 [],
         Context.message_line_error 3 [] (0, 1)
          ("Add a message body with context about the change and why it was made").data]]
    else if width < 10 then
      let lineCount := (rustLines c.message).length
      let lineNumber := lineCount + 1
      [Issue.error .MessagePresence
        ("The message body is too short").data
        (.messageLine lineNumber 1)
        (match (rustLines c.message).getLast? with
         | some line =>
            [Context.message_line_error lineNumber line (0, utf8Len line)
              ("Add a longer message with context about the change and why it was made").data]
         | none => [])]
    else []

/-- The nested code-block state of `Commit::validate_message_line_length`. -/
inductive CodeBlockStyle where
  | none
  | fenced
  | indenting
  deriving Repr, DecidableEq

/-- One transition of the code-block state machine, applied to the trimmed
line before the width check. -/
def nextCodeBlockStyle (st : CodeBlockStyle) (prevEmpty : Bool)
    (line : List Char) : CodeBlockStyle :=
  match st with
  | .fenced => if codeBlockLineEnd line then .none else .fenced
  | .indenting =>
      if ("    ").data.isPrefixOf line then .indenting else .none
  | .none =>
      if codeBlockLineWithLanguage line then .fenced
      else if ("    ").data.isPrefixOf line && prevEmpty then .indenting
      else .none

/-- The issue pushed for one over-width message line. -/
def mkLineLengthIssue (index : Nat) (line : List Char) (stats : LineStats) :
    Issue :=
  Issue.error .MessageLineLength
    (("Line ").data ++ natChars (index + 2) ++
      (" in the message body is longer than 72 characters").data)
    (.messageLine (index + 2) (stats.char_count + 1))
    [Context.message_line_error (index + 2) line
      (stats.bytes_index, utf8Len line)
      ("Shorten line to maximum 72 characters").data]

/-- The loop of `Commit::validate_message_line_length`.  A `continue` taken
while inside a code block or on an over-width URL line skips the update of
`previous_line_was_empty_line`, so the flag keeps its old value there. -/
def messageLineLengthGo :
    List (List Char) → Nat → CodeBlockStyle → Bool → List Issue
  | [], _, _, _ => []
  | rawLine :: rest, index, st, prevEmpty =>
      let line := trimEnd rawLine
      let ws := line_length_stats line 72
      let st' := nextCodeBlockStyle st prevEmpty line
      if st' ≠ CodeBlockStyle.none then
        messageLineLengthGo rest (index + 1) st' prevEmpty
      else if 72 < ws.1 then
        if urlIsMatch line then
          messageLineLengthGo rest (index + 1) st' prevEmpty
        else
          mkLineLengthIssue index line ws.2 ::
            messageLineLengthGo rest (index + 1) st'
              (trimBoth line).isEmpty
      else
        messageLineLengthGo rest (index + 1) st' (trimBoth line).isEmpty

/-- Issues of `Commit::validate_message_line_length`. -/
def message_line_length_issues (c : Commit) : List Issue :=
  if ruleIgnored c .MessageLineLength then []
  else messageLineLengthGo (rustLines c.message) 0 .none false

/-- Issues of `Commit::validate_message_ticket_numbers`; note that this
check does not consult the ignored-rules set. -/
def message_ticket_number_issues (c : Commit) : List Issue :=
  if (fixTicketFind c.message).isNone && !linkTicketIsMatch c.message then
    let lineCount := (rustLines c.message).length + 1
    let lastLine :=
      if lineCount = 1 then c.subject
      else (rustLines c.message).getLast?.getD []
    [Issue.hint .MessageTicketNumber
      ("The message body does not contain a ticket or issue number").data
      (.messageLine (lineCount + 2) 1)
      [Context.message_line lineCount lastLine,
       Context.message_line (lineCount + 1) [],
       Context.message_line_addition (lineCount + 2) ("Fixes #123").data
        (0, 10)
        ("Consider adding a reference to a ticket or issue").data]]
  else []

/-- Issues of `Commit::validate_changes`. -/
def changes_issues (c : Commit) : List Issue :=
  if ruleIgnored c .DiffPresence then []
  else if c.has_changes then []
  else
    [Issue.error .DiffPresence ("No file changes found").data .diff
      [Context.diff_error
        ("0 files changed, 0 insertions(+), 0 deletions(-)").data
        (0, 48)
        ("Add changes to the commit or remove the commit").data]]

/-- `Commit::validate_merge_commit`. -/
def validate_merge_commit : Commit → Commit := pushIssues merge_commit_issues

/-- `Commit::validate_needs_rebase`. -/
def validate_needs_rebase : Commit → Commit := pushIssues needs_rebase_issues

/-- `Commit::validate_subject_cliches`. -/
def validate_subject_cliches : Commit → Commit :=
  pushIssues subject_cliche_issues

/-- `Commit::validate_subject_line_length`. -/
def validate_subject_line_length : Commit → Commit :=
  pushIssues subject_line_length_issues

/-- `Commit::validate_subject_mood`. -/
def validate_subject_mood : Commit → Commit := pushIssues subject_mood_issues

/-- `Commit::validate_subject_whitespace`. -/
def validate_subject_whitespace : Commit → Commit :=
  pushIssues subject_whitespace_issues

/-- `Commit::validate_subject_prefix` (named after its rule here). -/
def validate_subject_prefixes : Commit → Commit :=
  pushIssues subject_prefix_issues

/-- `Commit::validate_subject_capitalization`. -/
def validate_subject_capitalization : Commit → Commit :=
  pushIssues subject_capitalization_issues

/-- `Commit::validate_subject_build_tags`. -/
def validate_subject_build_tags : Commit → Commit :=
  pushIssues subject_build_tag_issues

/-- `Commit::validate_subject_punctuation`. -/
def validate_subject_punctuation : Commit → Commit :=
  pushIssues subject_punctuation_issues

/-- `Commit::validate_subject_ticket_numbers`. -/
def validate_subject_ticket_numbers : Commit → Commit :=
  pushIssues subject_ticket_number_issues

/-- `Commit::validate_message_ticket_numbers`. -/
def validate_message_ticket_numbers : Commit → Commit :=
  pushIssues message_ticket_number_issues

/-- `Commit::validate_message_empty_first_line`. -/
def validate_message_empty_first_line : Commit → Commit :=
  pushIssues message_empty_first_line_issues

/-- `Commit::validate_message_presence`. -/
def validate_message_presence : Commit → Commit :=
  pushIssues message_presence_issues

/-- `Commit::validate_message_line_length`. -/
def validate_message_line_length : Commit → Commit :=
  pushIssues message_line_length_issues

/-- `Commit::validate_changes`. -/
def validate_changes : Commit → Commit := pushIssues changes_issues

/-- The thirteen checks skipped when a MergeCommit or NeedsRebase issue was
recorded, in the evaluation order of `Commit::validate`. -/
def validateInnerBlock (c : Commit) : Commit :=
  validate_message_line_length
    (validate_message_presence
      (validate_message_empty_first_line
        (validate_message_ticket_numbers
          (validate_subject_ticket_numbers
            (validate_subject_punctuation
              (validate_subject_build_tags
                (validate_subject_capitalization
                  (validate_subject_prefixes
                    (validate_subject_whitespace
                      (validate_subject_mood
                        (validate_subject_line_length
                          (validate_subject_cliches c))))))))))))

/-- `Commit::validate`: the ordered rule pipeline with the MergeCommit /
NeedsRebase skip; DiffPresence always runs. -/
def validate (c : Commit) : Commit :=
  let c2 := validate_needs_rebase (validate_merge_commit c)
  let c3 :=
    if !hasIssue c2 .MergeCommit && !hasIssue c2 .NeedsRebase then
      validateInnerBlock c2
    else c2
  validate_changes c3

end Lintje

namespace Lintje

/-! ## Infrastructure lemmas: each check only pushes issues of its own rule,
and is silent when its rule is suppressed. -/

lemma pushIssues_issues (f : Commit → List Issue) (c : Commit) :
    (pushIssues f c).issues = c.issues ++ f c := rfl

lemma pushIssues_long_sha (f : Commit → List Issue) (c : Commit) :
    (pushIssues f c).long_sha = c.long_sha := rfl

lemma pushIssues_short_sha (f : Commit → List Issue) (c : Commit) :
    (pushIssues f c).short_sha = c.short_sha := rfl

lemma pushIssues_email (f : Commit → List Issue) (c : Commit) :
    (pushIssues f c).email = c.email := rfl

lemma pushIssues_subject (f : Commit → List Issue) (c : Commit) :
    (pushIssues f c).subject = c.subject := rfl

lemma pushIssues_message (f : Commit → List Issue) (c : Commit) :
    (pushIssues f c).message = c.message := rfl

lemma pushIssues_has_changes (f : Commit → List Issue) (c : Commit) :
    (pushIssues f c).has_changes = c.has_changes := rfl

lemma pushIssues_ignored (f : Commit → List Issue) (c : Commit) :
    (pushIssues f c).ignored = c.ignored := rfl

lemma pushIssues_ignored_rules (f : Commit → List Issue) (c : Commit) :
    (pushIssues f c).ignored_rules = c.ignored_rules := rfl

lemma mem_merge_commit_issues {c : Commit} {i : Issue}
    (h : i ∈ merge_commit_issues c) : i.rule = .MergeCommit := by
  unfold merge_commit_issues at h
  try simp only at h
  split at h
  next => simp at h
  next => split at h <;> simp_all [Issue.error]

lemma mem_needs_rebase_issues {c : Commit} {i : Issue}
    (h : i ∈ needs_rebase_issues c) : i.rule = .NeedsRebase := by
  unfold needs_rebase_issues at h
  try simp only at h
  split at h
  next => simp at h
  next =>
    split at h
    next => simp_all [Issue.error]
    next => split at h <;> simp_all [Issue.error]

lemma mem_subject_line_length_issues {c : Commit} {i : Issue}
    (h : i ∈ subject_line_length_issues c) : i.rule = .SubjectLength := by
  unfold subject_line_length_issues at h
  try simp only at h
  split at h
  next => simp at h
  next =>
    split at h
    next => simp_all [Issue.error]
    next =>
      split at h
      next => simp_all [Issue.error]
      next => split at h <;> simp_all [Issue.error]

lemma mem_subject_mood_issues {c : Commit} {i : Issue}
    (h : i ∈ subject_mood_issues c) : i.rule = .SubjectMood := by
  unfold subject_mood_issues at h
  try simp only at h
  split at h
  next => simp at h
  next => split at h <;> simp_all [Issue.error]

lemma mem_subject_whitespace_issues {c : Commit} {i : Issue}
    (h : i ∈ subject_whitespace_issues c) : i.rule = .SubjectWhitespace := by
  unfold subject_whitespace_issues at h
  try simp only at h
  split at h
  next => simp at h
  next =>
    split at h
    next => simp at h
    next =>
      split at h
      next => split at h <;> simp_all [Issue.error]
      next => simp at h

lemma mem_subject_capitalization_issues {c : Commit} {i : Issue}
    (h : i ∈ subject_capitalization_issues c) :
    i.rule = .SubjectCapitalization := by
  unfold subject_capitalization_issues at h
  try simp only at h
  split at h
  next => simp at h
  next =>
    split at h
    next => simp at h
    next =>
      split at h
      next => split at h <;> simp_all [Issue.error]
      next => simp at h

lemma mem_subject_punctuation_issues {c : Commit} {i : Issue}
    (h : i ∈ subject_punctuation_issues c) : i.rule = .SubjectPunctuation := by
  unfold subject_punctuation_issues at h
  try simp only at h
  split at h
  next => simp at h
  next =>
    split at h
    next => simp at h
    next =>
      simp only [List.mem_append] at h
      rcases h with (h | h) | h
      · split at h <;> simp_all [Issue.error]
      · split at h
        next => split at h <;> simp_all [Issue.error]
        next => simp at h
      · split at h
        next => split at h <;> simp_all [Issue.error]
        next => simp at h

lemma mem_subject_ticket_number_issues {c : Commit} {i : Issue}
    (h : i ∈ subject_ticket_number_issues c) :
    i.rule = .SubjectTicketNumber := by
  unfold subject_ticket_number_issues at h
  try simp only at h
  split at h
  next => simp at h
  next =>
    simp only [List.mem_append] at h
    rcases h with h | h <;>
      split at h <;> simp_all [subjectTicketIssue, Issue.error]

lemma mem_subject_prefix_issues {c : Commit} {i : Issue}
    (h : i ∈ subject_prefix_issues c) : i.rule = .SubjectPrefix := by
  unfold subject_prefix_issues at h
  try simp only at h
  split at h
  next => simp at h
  next => split at h <;> simp_all [Issue.error]

lemma mem_subject_build_tag_issues {c : Commit} {i : Issue}
    (h : i ∈ subject_build_tag_issues c) : i.rule = .SubjectBuildTag := by
  unfold subject_build_tag_issues at h
  try simp only at h
  split at h
  next => simp at h
  next => split at h <;> simp_all [Issue.error]

lemma mem_subject_cliche_issues {c : Commit} {i : Issue}
    (h : i ∈ subject_cliche_issues c) : i.rule = .SubjectCliche := by
  unfold subject_cliche_issues at h
  try simp only at h
  split at h
  next => simp at h
  next => split at h <;> simp_all [Issue.error]

lemma mem_message_empty_first_line_issues {c : Commit} {i : Issue}
    (h : i ∈ message_empty_first_line_issues c) :
    i.rule = .MessageEmptyFirstLine := by
  unfold message_empty_first_line_issues at h
  try simp only at h
  split at h
  next => simp at h
  next =>
    split at h
    next => split at h <;> simp_all [Issue.error]
    next => simp at h

lemma mem_message_presence_issues {c : Commit} {i : Issue}
    (h : i ∈ message_presence_issues c) : i.rule = .MessagePresence := by
  unfold message_presence_issues at h
  try simp only at h
  split at h
  next => simp at h
  next =>
    split at h
    next => simp_all [Issue.error]
    next => split at h <;> simp_all [Issue.error]

lemma mem_message_line_length_go {lines : List (List Char)} {idx : Nat}
    {st : CodeBlockStyle} {pe : Bool} {i : Issue}
    (h : i ∈ messageLineLengthGo lines idx st pe) :
    i.rule = .MessageLineLength := by
  induction lines generalizing idx st pe with
  | nil => simp [messageLineLengthGo] at h
  | cons l rest ih =>
      rw [messageLineLengthGo] at h
      try simp only at h
      split at h
      · exact ih h
      · split at h
        · split at h
          · exact ih h
          · rcases List.mem_cons.mp h with h | h
            · subst h; rfl
            · exact ih h
        · exact ih h

lemma mem_message_line_length_issues {c : Commit} {i : Issue}
    (h : i ∈ message_line_length_issues c) : i.rule = .MessageLineLength := by
  unfold message_line_length_issues at h
  try simp only at h
  split at h
  next => simp at h
  next => exact mem_message_line_length_go h

lemma mem_message_ticket_number_issues {c : Commit} {i : Issue}
    (h : i ∈ message_ticket_number_issues c) :
    i.rule = .MessageTicketNumber := by
  unfold message_ticket_number_issues at h
  try simp only at h
  split at h <;> simp_all [Issue.hint]

lemma mem_changes_issues {c : Commit} {i : Issue}
    (h : i ∈ changes_issues c) : i.rule = .DiffPresence := by
  unfold changes_issues at h
  try simp only at h
  split at h
  next => simp at h
  next =>
    split at h
    next => simp at h
    next => simp_all [Issue.error]

end Lintje

namespace Lintje

/-! ## Suppression: every check except MessageTicketNumber is silent when its
rule is in the ignored set. -/

lemma merge_commit_issues_suppressed {c : Commit}
    (h : ruleIgnored c .MergeCommit = true) : merge_commit_issues c = [] := by
  unfold merge_commit_issues
  simp [h]

lemma needs_rebase_issues_suppressed {c : Commit}
    (h : ruleIgnored c .NeedsRebase = true) : needs_rebase_issues c = [] := by
  unfold needs_rebase_issues
  simp [h]

lemma subject_line_length_issues_suppressed {c : Commit}
    (h : ruleIgnored c .SubjectLength = true) :
    subject_line_length_issues c = [] := by
  unfold subject_line_length_issues
  simp [h]

lemma subject_mood_issues_suppressed {c : Commit}
    (h : ruleIgnored c .SubjectMood = true) : subject_mood_issues c = [] := by
  unfold subject_mood_issues
  simp [h]

lemma subject_whitespace_issues_suppressed {c : Commit}
    (h : ruleIgnored c .SubjectWhitespace = true) :
    subject_whitespace_issues c = [] := by
  unfold subject_whitespace_issues
  simp [h]

lemma subject_capitalization_issues_suppressed {c : Commit}
    (h : ruleIgnored c .SubjectCapitalization = true) :
    subject_capitalization_issues c = [] := by
  unfold subject_capitalization_issues
  simp [h]

lemma subject_punctuation_issues_suppressed {c : Commit}
    (h : ruleIgnored c .SubjectPunctuation = true) :
    subject_punctuation_issues c = [] := by
  unfold subject_punctuation_issues
  simp [h]

lemma subject_ticket_number_issues_suppressed {c : Commit}
    (h : ruleIgnored c .SubjectTicketNumber = true) :
    subject_ticket_number_issues c = [] := by
  unfold subject_ticket_number_issues
  simp [h]

lemma subject_prefix_issues_suppressed {c : Commit}
    (h : ruleIgnored c .SubjectPrefix = true) :
    subject_prefix_issues c = [] := by
  unfold subject_prefix_issues
  simp [h]

lemma subject_build_tag_issues_suppressed {c : Commit}
    (h : ruleIgnored c .SubjectBuildTag = true) :
    subject_build_tag_issues c = [] := by
  unfold subject_build_tag_issues
  simp [h]

lemma subject_cliche_issues_suppressed {c : Commit}
    (h : ruleIgnored c .SubjectCliche = true) :
    subject_cliche_issues c = [] := by
  unfold subject_cliche_issues
  simp [h]

lemma message_empty_first_line_issues_suppressed {c : Commit}
    (h : ruleIgnored c .MessageEmptyFirstLine = true) :
    message_empty_first_line_issues c = [] := by
  unfold message_empty_first_line_issues
  simp [h]

lemma message_presence_issues_suppressed {c : Commit}
    (h : ruleIgnored c .MessagePresence = true) :
    message_presence_issues c = [] := by
  unfold message_presence_issues
  simp [h]

lemma message_line_length_issues_suppressed {c : Commit}
    (h : ruleIgnored c .MessageLineLength = true) :
    message_line_length_issues c = [] := by
  unfold message_line_length_issues
  simp [h]

lemma changes_issues_suppressed {c : Commit}
    (h : ruleIgnored c .DiffPresence = true) : changes_issues c = [] := by
  unfold changes_issues
  simp [h]

end Lintje

namespace Lintje

/-! ## Pipeline decomposition lemmas -/

/-- The first two checks of the pipeline, before the skip decision. -/
def validateFirstTwo (c : Commit) : Commit :=
  validate_needs_rebase (validate_merge_commit c)

lemma validate_eq_skip {c : Commit}
    (h : (!hasIssue (validateFirstTwo c) .MergeCommit &&
          !hasIssue (validateFirstTwo c) .NeedsRebase) = false) :
    validate c = validate_changes (validateFirstTwo c) := by
  unfold validate
  simp only [validateFirstTwo] at h ⊢
  rw [if_neg]
  simp [h]

lemma validate_eq_full {c : Commit}
    (h : (!hasIssue (validateFirstTwo c) .MergeCommit &&
          !hasIssue (validateFirstTwo c) .NeedsRebase) = true) :
    validate c = validate_changes (validateInnerBlock (validateFirstTwo c)) := by
  unfold validate
  simp only [validateFirstTwo] at h ⊢
  rw [if_pos h]

lemma ruleIgnored_iff {c : Commit} {r : Rule} :
    ruleIgnored c r = true ↔ r ∈ c.ignored_rules := by
  simp [ruleIgnored]

lemma validate_long_sha (c : Commit) : (validate c).long_sha = c.long_sha := by
  unfold validate
  try simp only
  split <;>
    simp only [validate_changes, validateInnerBlock, validate_message_line_length,
      validate_message_presence, validate_message_empty_first_line,
      validate_message_ticket_numbers, validate_subject_ticket_numbers,
      validate_subject_punctuation, validate_subject_build_tags,
      validate_subject_capitalization, validate_subject_prefixes,
      validate_subject_whitespace, validate_subject_mood,
      validate_subject_line_length, validate_subject_cliches,
      validate_needs_rebase, validate_merge_commit, pushIssues_long_sha]

lemma validate_short_sha (c : Commit) : (validate c).short_sha = c.short_sha := by
  unfold validate
  try simp only
  split <;>
    simp only [validate_changes, validateInnerBlock, validate_message_line_length,
      validate_message_presence, validate_message_empty_first_line,
      validate_message_ticket_numbers, validate_subject_ticket_numbers,
      validate_subject_punctuation, validate_subject_build_tags,
      validate_subject_capitalization, validate_subject_prefixes,
      validate_subject_whitespace, validate_subject_mood,
      validate_subject_line_length, validate_subject_cliches,
      validate_needs_rebase, validate_merge_commit, pushIssues_short_sha]

lemma validate_email (c : Commit) : (validate c).email = c.email := by
  unfold validate
  try simp only
  split <;>
    simp only [validate_changes, validateInnerBlock, validate_message_line_length,
      validate_message_presence, validate_message_empty_first_line,
      validate_message_ticket_numbers, validate_subject_ticket_numbers,
      validate_subject_punctuation, validate_subject_build_tags,
      validate_subject_capitalization, validate_subject_prefixes,
      validate_subject_whitespace, validate_subject_mood,
      validate_subject_line_length, validate_subject_cliches,
      validate_needs_rebase, validate_merge_commit, pushIssues_email]

lemma validate_subject (c : Commit) : (validate c).subject = c.subject := by
  unfold validate
  try simp only
  split <;>
    simp only [validate_changes, validateInnerBlock, validate_message_line_length,
      validate_message_presence, validate_message_empty_first_line,
      validate_message_ticket_numbers, validate_subject_ticket_numbers,
      validate_subject_punctuation, validate_subject_build_tags,
      validate_subject_capitalization, validate_subject_prefixes,
      validate_subject_whitespace, validate_subject_mood,
      validate_subject_line_length, validate_subject_cliches,
      validate_needs_rebase, validate_merge_commit, pushIssues_subject]

lemma validate_message (c : Commit) : (validate c).message = c.message := by
  unfold validate
  try simp only
  split <;>
    simp only [validate_changes, validateInnerBlock, validate_message_line_length,
      validate_message_presence, validate_message_empty_first_line,
      validate_message_ticket_numbers, validate_subject_ticket_numbers,
      validate_subject_punctuation, validate_subject_build_tags,
      validate_subject_capitalization, validate_subject_prefixes,
      validate_subject_whitespace, validate_subject_mood,
      validate_subject_line_length, validate_subject_cliches,
      validate_needs_rebase, validate_merge_commit, pushIssues_message]

lemma validate_has_changes (c : Commit) :
    (validate c).has_changes = c.has_changes := by
  unfold validate
  try simp only
  split <;>
    simp only [validate_changes, validateInnerBlock, validate_message_line_length,
      validate_message_presence, validate_message_empty_first_line,
      validate_message_ticket_numbers, validate_subject_ticket_numbers,
      validate_subject_punctuation, validate_subject_build_tags,
      validate_subject_capitalization, validate_subject_prefixes,
      validate_subject_whitespace, validate_subject_mood,
      validate_subject_line_length, validate_subject_cliches,
      validate_needs_rebase, validate_merge_commit, pushIssues_has_changes]

lemma validate_ignored (c : Commit) : (validate c).ignored = c.ignored := by
  unfold validate
  try simp only
  split <;>
    simp only [validate_changes, validateInnerBlock, validate_message_line_length,
      validate_message_presence, validate_message_empty_first_line,
      validate_message_ticket_numbers, validate_subject_ticket_numbers,
      validate_subject_punctuation, validate_subject_build_tags,
      validate_subject_capitalization, validate_subject_prefixes,
      validate_subject_whitespace, validate_subject_mood,
      validate_subject_line_length, validate_subject_cliches,
      validate_needs_rebase, validate_merge_commit, pushIssues_ignored]

lemma validate_ignored_rules (c : Commit) :
    (validate c).ignored_rules = c.ignored_rules := by
  unfold validate
  try simp only
  split <;>
    simp only [validate_changes, validateInnerBlock, validate_message_line_length,
      validate_message_presence, validate_message_empty_first_line,
      validate_message_ticket_numbers, validate_subject_ticket_numbers,
      validate_subject_punctuation, validate_subject_build_tags,
      validate_subject_capitalization, validate_subject_prefixes,
      validate_subject_whitespace, validate_subject_mood,
      validate_subject_line_length, validate_subject_cliches,
      validate_needs_rebase, validate_merge_commit, pushIssues_ignored_rules]

lemma push_extends (f : Commit → List Issue) {x y : Commit}
    (h : ∃ t, x.issues = y.issues ++ t) :
    ∃ t, (pushIssues f x).issues = y.issues ++ t := by
  rcases h with ⟨t, ht⟩
  exact ⟨t ++ f x, by simp [pushIssues, ht]⟩

lemma validate_issues_append (c : Commit) :
    ∃ t, (validate c).issues = c.issues ++ t := by
  unfold validate
  try simp only
  split <;>
  · simp only [validate_changes, validateInnerBlock, validate_message_line_length,
      validate_message_presence, validate_message_empty_first_line,
      validate_message_ticket_numbers, validate_subject_ticket_numbers,
      validate_subject_punctuation, validate_subject_build_tags,
      validate_subject_capitalization, validate_subject_prefixes,
      validate_subject_whitespace, validate_subject_mood,
      validate_subject_line_length, validate_subject_cliches,
      validate_needs_rebase, validate_merge_commit]
    repeat apply push_extends
    exact ⟨[], by simp⟩

end Lintje

namespace Lintje

lemma step_case {R : Rule} {g : Commit → List Issue} {x : Commit}
    {rs : List Rule} {i : Issue}
    (hmem : i ∈ g x)
    (hrule : ∀ {y : Commit} {j : Issue}, j ∈ g y → j.rule = R)
    (hsupp : ∀ {y : Commit}, ruleIgnored y R = true → g y = [])
    (hx : x.ignored_rules = rs) :
    i.rule = R ∧ rs.contains R = false := by
  refine ⟨hrule hmem, ?_⟩
  by_contra hc
  have hig : ruleIgnored x R = true := by
    simp only [ruleIgnored, hx]
    simpa using hc
  rw [hsupp hig] at hmem
  simp at hmem

lemma not_ignored_of_case {c : Commit} {i : Issue} {R : Rule}
    (hc : i.rule = R ∧ c.ignored_rules.contains R = false) :
    ruleIgnored c i.rule = false := by
  rcases hc with ⟨h1, h2⟩
  rw [h1]
  simpa [ruleIgnored] using h2

/-- Sequential application of a list of checks, each appending its issues. -/
def applyChecks : List (Commit → List Issue) → Commit → Commit
  | [], c => c
  | f :: fs, c => applyChecks fs (pushIssues f c)

/-- The thirteen checks of the skippable block, in evaluation order. -/
def innerChecks : List (Commit → List Issue) :=
  [subject_cliche_issues, subject_line_length_issues, subject_mood_issues,
   subject_whitespace_issues, subject_prefix_issues,
   subject_capitalization_issues, subject_build_tag_issues,
   subject_punctuation_issues, subject_ticket_number_issues,
   message_ticket_number_issues, message_empty_first_line_issues,
   message_presence_issues, message_line_length_issues]

lemma validateInnerBlock_eq_applyChecks (c : Commit) :
    validateInnerBlock c = applyChecks innerChecks c := rfl

lemma validateFirstTwo_eq_applyChecks (c : Commit) :
    validateFirstTwo c =
      applyChecks [merge_commit_issues, needs_rebase_issues] c := rfl

lemma applyChecks_subject (fs : List (Commit → List Issue)) (c : Commit) :
    (applyChecks fs c).subject = c.subject := by
  induction fs generalizing c with
  | nil => rfl
  | cons f fs ih => simpa [applyChecks] using ih (pushIssues f c)

lemma applyChecks_message (fs : List (Commit → List Issue)) (c : Commit) :
    (applyChecks fs c).message = c.message := by
  induction fs generalizing c with
  | nil => rfl
  | cons f fs ih => simpa [applyChecks] using ih (pushIssues f c)

lemma applyChecks_ignored_rules (fs : List (Commit → List Issue)) (c : Commit) :
    (applyChecks fs c).ignored_rules = c.ignored_rules := by
  induction fs generalizing c with
  | nil => rfl
  | cons f fs ih => simpa [applyChecks] using ih (pushIssues f c)

/-- Decomposition: every issue present after a block of checks either was
present before, or was produced by one of the checks at a state that agrees
with the initial one on subject, message and ignored rules. -/
lemma applyChecks_mem {fs : List (Commit → List Issue)} {x : Commit}
    {i : Issue} (h : i ∈ (applyChecks fs x).issues) :
    i ∈ x.issues ∨ ∃ f ∈ fs, ∃ y : Commit,
      y.subject = x.subject ∧ y.message = x.message ∧
      y.ignored_rules = x.ignored_rules ∧ i ∈ f y := by
  induction fs generalizing x with
  | nil => exact Or.inl h
  | cons f fs ih =>
      rcases ih (x := pushIssues f x) h with h | ⟨g, hg, y, h1, h2, h3, h4⟩
      · rcases List.mem_append.mp h with h | h
        · exact Or.inl h
        · exact Or.inr ⟨f, by simp, x, rfl, rfl, rfl, h⟩
      · exact Or.inr ⟨g, by simp [hg], y, h1, h2, h3, h4⟩

/-- Every issue recorded by `validate` either was already present, or has
rule MessageTicketNumber, or has a rule that is not suppressed: the
MessageTicketNumber check is the only one that skips the suppression guard. -/
lemma validate_mem_cases {c : Commit} {i : Issue}
    (h : i ∈ (validate c).issues) :
    i ∈ c.issues ∨ i.rule = .MessageTicketNumber ∨
      ruleIgnored c i.rule = false := by
  have hcase :
      ∀ (x : Commit) (g : Commit → List Issue) (R : Rule),
        (∀ {y : Commit} {j : Issue}, j ∈ g y → j.rule = R) →
        (∀ {y : Commit}, ruleIgnored y R = true → g y = []) →
        x.ignored_rules = c.ignored_rules → i ∈ g x →
        ruleIgnored c i.rule = false := by
    intro x g R hrule hsupp hx hm
    rw [hrule hm]
    by_contra hc
    have hig : ruleIgnored x R = true := by
      simp only [ruleIgnored, hx]
      simpa [ruleIgnored] using hc
    rw [hsupp hig] at hm
    simp at hm
  have hfirst :
      ∀ {x : Commit}, x.ignored_rules = c.ignored_rules →
        i ∈ (validateFirstTwo x).issues →
        i ∈ x.issues ∨ ruleIgnored c i.rule = false := by
    intro x hx h2
    rw [validateFirstTwo_eq_applyChecks] at h2
    rcases applyChecks_mem h2 with h2 | ⟨g, hg, y, _, _, h3, h4⟩
    · exact Or.inl h2
    · simp only [List.mem_cons, List.mem_singleton] at hg
      rcases hg with rfl | rfl | hg
      · exact Or.inr (hcase y _ .MergeCommit
          (fun hm => mem_merge_commit_issues hm)
          (fun hig => merge_commit_issues_suppressed hig) (h3.trans hx) h4)
      · exact Or.inr (hcase y _ .NeedsRebase
          (fun hm => mem_needs_rebase_issues hm)
          (fun hig => needs_rebase_issues_suppressed hig) (h3.trans hx) h4)
      · simp at hg
  -- peel the final DiffPresence check
  unfold validate at h
  simp only at h
  have hchanges :
      ∀ {x : Commit}, x.ignored_rules = c.ignored_rules →
        i ∈ (validate_changes x).issues →
        i ∈ x.issues ∨ ruleIgnored c i.rule = false := by
    intro x hx h2
    rcases List.mem_append.mp h2 with h2 | h2
    · exact Or.inl h2
    · exact Or.inr (hcase x _ .DiffPresence
        (fun hm => mem_changes_issues hm)
        (fun hig => changes_issues_suppressed hig) hx h2)
  split at h
  · rcases hchanges (x := validateInnerBlock (validateFirstTwo c))
        (by rw [validateInnerBlock_eq_applyChecks, applyChecks_ignored_rules,
              validateFirstTwo_eq_applyChecks, applyChecks_ignored_rules]) h with
      h | h
    · rw [validateInnerBlock_eq_applyChecks] at h
      rcases applyChecks_mem h with h | ⟨g, hg, y, _, _, h3, h4⟩
      · rcases hfirst (x := c) rfl h with h | h
        · exact Or.inl h
        · exact Or.inr (Or.inr h)
      · have hyc : y.ignored_rules = c.ignored_rules := by
          rw [h3, validateFirstTwo_eq_applyChecks, applyChecks_ignored_rules]
        simp only [innerChecks, List.mem_cons, List.mem_singleton] at hg
        rcases hg with rfl | rfl | rfl | rfl | rfl | rfl | rfl | rfl | rfl |
          rfl | rfl | rfl | rfl | hg
        · exact Or.inr (Or.inr (hcase y _ .SubjectCliche
            (fun hm => mem_subject_cliche_issues hm)
            (fun hig => subject_cliche_issues_suppressed hig) hyc h4))
        · exact Or.inr (Or.inr (hcase y _ .SubjectLength
            (fun hm => mem_subject_line_length_issues hm)
            (fun hig => subject_line_length_issues_suppressed hig) hyc h4))
        · exact Or.inr (Or.inr (hcase y _ .SubjectMood
            (fun hm => mem_subject_mood_issues hm)
            (fun hig => subject_mood_issues_suppressed hig) hyc h4))
        · exact Or.inr (Or.inr (hcase y _ .SubjectWhitespace
            (fun hm => mem_subject_whitespace_issues hm)
            (fun hig => subject_whitespace_issues_suppressed hig) hyc h4))
        · exact Or.inr (Or.inr (hcase y _ .SubjectPrefix
            (fun hm => mem_subject_prefix_issues hm)
            (fun hig => subject_prefix_issues_suppressed hig) hyc h4))
        · exact Or.inr (Or.inr (hcase y _ .SubjectCapitalization
            (fun hm => mem_subject_capitalization_issues hm)
            (fun hig => subject_capitalization_issues_suppressed hig) hyc h4))
        · exact Or.inr (Or.inr (hcase y _ .SubjectBuildTag
            (fun hm => mem_subject_build_tag_issues hm)
            (fun hig => subject_build_tag_issues_suppressed hig) hyc h4))
        · exact Or.inr (Or.inr (hcase y _ .SubjectPunctuation
            (fun hm => mem_subject_punctuation_issues hm)
            (fun hig => subject_punctuation_issues_suppressed hig) hyc h4))
        · exact Or.inr (Or.inr (hcase y _ .SubjectTicketNumber
            (fun hm => mem_subject_ticket_number_issues hm)
            (fun hig => subject_ticket_number_issues_suppressed hig) hyc h4))
        · exact Or.inr (Or.inl (mem_message_ticket_number_issues h4))
        · exact Or.inr (Or.inr (hcase y _ .MessageEmptyFirstLine
            (fun hm => mem_message_empty_first_line_issues hm)
            (fun hig => message_empty_first_line_issues_suppressed hig) hyc h4))
        · exact Or.inr (Or.inr (hcase y _ .MessagePresence
            (fun hm => mem_message_presence_issues hm)
            (fun hig => message_presence_issues_suppressed hig) hyc h4))
        · exact Or.inr (Or.inr (hcase y _ .MessageLineLength
            (fun hm => mem_message_line_length_issues hm)
            (fun hig => message_line_length_issues_suppressed hig) hyc h4))
        · simp at hg
    · exact Or.inr (Or.inr h)
  · rcases hchanges (x := validateFirstTwo c)
        (by rw [validateFirstTwo_eq_applyChecks, applyChecks_ignored_rules]) h with
      h | h
    · rcases hfirst (x := c) rfl h with h | h
      · exact Or.inl h
      · exact Or.inr (Or.inr h)
    · exact Or.inr (Or.inr h)

end Lintje

namespace Lintje

/-! ## Claim theorems -/

/-- C9: `validate` mutates only the issues field — long_sha, short_sha,
email, subject, message, has_changes, ignored and the ignored-rules set are
identical before and after the call, and issues only grows: the new list is
the old list with a suffix appended (nothing removed or reordered). -/
theorem C9_validate_frame (c : Commit) :
    (validate c).long_sha = c.long_sha ∧
    (validate c).short_sha = c.short_sha ∧
    (validate c).email = c.email ∧
    (validate c).subject = c.subject ∧
    (validate c).message = c.message ∧
    (validate c).has_changes = c.has_changes ∧
    (validate c).ignored = c.ignored ∧
    (validate c).ignored_rules = c.ignored_rules ∧
    ∃ t, (validate c).issues = c.issues ++ t :=
  ⟨validate_long_sha c, validate_short_sha c, validate_email c,
   validate_subject c, validate_message c, validate_has_changes c,
   validate_ignored c, validate_ignored_rules c, validate_issues_append c⟩

lemma find_ignored_rules_go_eq (lines : List (List Char)) :
    findIgnoredRulesGo lines = lines.filterMap fun line =>
      if ("lintje:disable ").data.isPrefixOf line then
        rule_by_name (line.drop 15)
      else none := by
  induction lines with
  | nil => rfl
  | cons line rest ih =>
      unfold findIgnoredRulesGo
      rw [List.filterMap_cons]
      split
      next hpre =>
        cases hby : rule_by_name (line.drop 15) <;>
          simp [hpre, hby, ih]
      next hpre =>
        simp [hpre, ih]

/-- C8: the suppressed-rule computation is total and returns exactly the
known rules named by directive lines: each message line is kept when it
starts with the exact prefix and its remainder resolves through the rule
catalog; lines with unknown trailing tokens contribute nothing, and no
failure value exists. -/
theorem C8_find_ignored_rules_characterization (message : List Char) :
    find_ignored_rules message = (rustLines message).filterMap fun line =>
      if ("lintje:disable ").data.isPrefixOf line then
        rule_by_name (line.drop 15)
      else none :=
  find_ignored_rules_go_eq (rustLines message)

/-- C4 (counterexample): a commit whose only recorded issue is the
MessageTicketNumber hint is NOT reported valid: `is_valid` is false because
the issues list is non-empty, contradicting the claim that a hint-only
commit is still valid. -/
theorem C4_counterexample :
    ((validate (Commit.new none none ("Rewrite the parser logic").data
        ("\nThis explains the reasoning behind the rewrite.").data
        true)).issues.map fun i => i.type) = [.hint] ∧
    (validate (Commit.new none none ("Rewrite the parser logic").data
        ("\nThis explains the reasoning behind the rewrite.").data
        true)).is_valid = false := by
  constructor
  · decide
  · decide

/-- C4 (amended): after validation, `is_valid` is true exactly when the
issues list is empty; a Hint-severity issue also makes the commit invalid —
a commit whose only recorded issue is the MessageTicketNumber hint has
`is_valid` false (severities are only distinguished later, by the caller's
exit policy). -/
theorem C4_is_valid_iff_empty :
    (∀ c : Commit, c.is_valid = true ↔ c.issues = []) ∧
    ((validate (Commit.new none none ("Rewrite the parser logic").data
        ("\nThis explains the reasoning behind the rewrite.").data
        true)).issues.map fun i => i.type) = [.hint] ∧
    (validate (Commit.new none none ("Rewrite the parser logic").data
        ("\nThis explains the reasoning behind the rewrite.").data
        true)).is_valid = false := by
  refine ⟨fun c => ?_, by decide, by decide⟩
  simp [Commit.is_valid, List.isEmpty_iff]

/-- C2 (counterexample): suppression is not honored by every rule of the
catalog: a commit whose message contains the line
`lintje:disable MessageTicketNumber` (so the rule is in the ignored set)
still receives a MessageTicketNumber issue from `validate`, because
`validate_message_ticket_numbers` never consults the ignored-rules set. -/
theorem C2_counterexample :
    Rule.MessageTicketNumber ∈
      (Commit.new none none ("Rewrite the parser logic").data
        ("\nGood explanation of the change.\nlintje:disable MessageTicketNumber").data
        true).ignored_rules ∧
    ((validate (Commit.new none none ("Rewrite the parser logic").data
        ("\nGood explanation of the change.\nlintje:disable MessageTicketNumber").data
        true)).issues.map fun i => i.rule) = [.MessageTicketNumber] := by
  constructor
  · decide
  · decide

/-- C2 (amended): for every rule R other than MessageTicketNumber, if R is
in the suppressed set computed at construction then no issue with rule R
appears after `validate`, regardless of how often R's trigger condition is
met; the MessageTicketNumber check alone ignores the suppressed set. -/
theorem C2_suppression_amended (sha email : Option (List Char))
    (subj msg : List Char) (hc : Bool) (R : Rule)
    (hmem : R ∈ (Commit.new sha email subj msg hc).ignored_rules)
    (hne : R ≠ .MessageTicketNumber) :
    (validate (Commit.new sha email subj msg hc)).issues.filter
      (fun i => decide (i.rule = R)) = [] := by
  rw [List.filter_eq_nil_iff]
  intro i hi
  simp only [decide_eq_true_eq]
  intro hrule
  rcases validate_mem_cases hi with h | h | h
  · simp [Commit.new] at h
  · exact hne (hrule ▸ h)
  · rw [hrule] at h
    have : ruleIgnored (Commit.new sha email subj msg hc) R = true :=
      ruleIgnored_iff.mpr hmem
    rw [this] at h
    simp at h

end Lintje

namespace Lintje

lemma prefix_head_eq {a b : Char} {p q s : List Char}
    (hp : (a :: p).isPrefixOf s = true) (hq : (b :: q).isPrefixOf s = true) :
    a = b := by
  cases s with
  | nil => simp [List.isPrefixOf] at hp
  | cons c rest =>
      simp [List.isPrefixOf] at hp hq
      exact hp.1.trans hq.1.symm

lemma not_merge_of_fixup {s : List Char}
    (h : ("fixup! ").data.isPrefixOf s = true) :
    subjectWithMergeRemoteBranch s = false := by
  unfold subjectWithMergeRemoteBranch
  cases hM : ("Merge branch '").data.isPrefixOf s
  · simp
  · exact absurd (prefix_head_eq h hM) (by decide)

/-- The rules producible by the thirteen inner checks. -/
lemma innerChecks_rules {g : Commit → List Issue} (hg : g ∈ innerChecks)
    {y : Commit} {i : Issue} (h : i ∈ g y) :
    i.rule ∈ ([.SubjectCliche, .SubjectLength, .SubjectMood,
      .SubjectWhitespace, .SubjectPrefix, .SubjectCapitalization,
      .SubjectBuildTag, .SubjectPunctuation, .SubjectTicketNumber,
      .MessageTicketNumber, .MessageEmptyFirstLine, .MessagePresence,
      .MessageLineLength] : List Rule) := by
  simp only [innerChecks, List.mem_cons, List.mem_singleton] at hg
  rcases hg with rfl | rfl | rfl | rfl | rfl | rfl | rfl | rfl | rfl | rfl |
    rfl | rfl | rfl | hg
  · simp [mem_subject_cliche_issues h]
  · simp [mem_subject_line_length_issues h]
  · simp [mem_subject_mood_issues h]
  · simp [mem_subject_whitespace_issues h]
  · simp [mem_subject_prefix_issues h]
  · simp [mem_subject_capitalization_issues h]
  · simp [mem_subject_build_tag_issues h]
  · simp [mem_subject_punctuation_issues h]
  · simp [mem_subject_ticket_number_issues h]
  · simp [mem_message_ticket_number_issues h]
  · simp [mem_message_empty_first_line_issues h]
  · simp [mem_message_presence_issues h]
  · simp [mem_message_line_length_issues h]
  · simp at hg

lemma hasIssue_exists {c : Commit} {R : Rule} (h : hasIssue c R = true) :
    ∃ i ∈ c.issues, i.rule = R := by
  simpa [hasIssue] using h

/-- C1: once `validate` records a MergeCommit or NeedsRebase issue, no
subject or message rule adds any issue — every recorded issue has rule
MergeCommit, NeedsRebase or DiffPresence (the latter always runs); in
particular a fresh commit with no changes, an empty message and a subject
starting with `fixup!` gets exactly the NeedsRebase and DiffPresence
issues, in that order. -/
theorem C1_merge_rebase_precedence :
    (∀ c : Commit, c.issues = [] →
      (hasIssue (validate c) .MergeCommit = true ∨
        hasIssue (validate c) .NeedsRebase = true) →
      ∀ i ∈ (validate c).issues,
        i.rule = .MergeCommit ∨ i.rule = .NeedsRebase ∨
          i.rule = .DiffPresence) ∧
    (∀ (sha email : Option (List Char)) (subj : List Char),
      ("fixup! ").data.isPrefixOf (trimEnd subj) = true →
      ((validate (Commit.new sha email subj [] false)).issues.map
        fun i => i.rule) = [.NeedsRebase, .DiffPresence]) := by
  constructor
  · intro c hempty hfired
    by_cases hcond : (!hasIssue (validateFirstTwo c) .MergeCommit &&
        !hasIssue (validateFirstTwo c) .NeedsRebase) = true
    · exfalso
      have hmain := validate_eq_full hcond
      simp only [Bool.and_eq_true, Bool.not_eq_true'] at hcond
      rcases hcond with ⟨hc1, hc2⟩
      rcases hfired with hf | hf <;>
      · obtain ⟨i, hi, hrule⟩ := hasIssue_exists hf
        rw [hmain] at hi
        rcases List.mem_append.mp hi with hi | hi
        · rw [validateInnerBlock_eq_applyChecks] at hi
          rcases applyChecks_mem hi with hi | ⟨g, hg, y, _, _, _, hmem⟩
          · have h2 : hasIssue (validateFirstTwo c) i.rule = true := by
              simp only [hasIssue, List.any_eq_true]
              exact ⟨i, hi, by simp⟩
            rw [hrule] at h2
            simp [h2] at hc1 hc2
          · have := innerChecks_rules hg hmem
            rw [hrule] at this
            simp at this
        · have := mem_changes_issues hi
          rw [hrule] at this
          simp at this
    · have hmain := validate_eq_skip (by simpa using hcond)
      intro i hi
      rw [hmain] at hi
      rcases List.mem_append.mp hi with hi | hi
      · rw [validateFirstTwo_eq_applyChecks] at hi
        rcases applyChecks_mem hi with hi | ⟨g, hg, y, _, _, _, hmem⟩
        · rw [hempty] at hi
          simp at hi
        · simp only [List.mem_cons, List.mem_singleton] at hg
          rcases hg with rfl | rfl | hg
          · exact Or.inl (mem_merge_commit_issues hmem)
          · exact Or.inr (Or.inl (mem_needs_rebase_issues hmem))
          · simp at hg
      · exact Or.inr (Or.inr (mem_changes_issues hi))
  · intro sha email subj hfix
    set c := Commit.new sha email subj [] false with hc
    have hsub : c.subject = trimEnd subj := rfl
    have hig : c.ignored_rules = [] := rfl
    have hmerge : merge_commit_issues c = [] := by
      unfold merge_commit_issues
      rw [hsub, not_merge_of_fixup hfix]
      simp
    have hrebase : needs_rebase_issues c =
        [Issue.error .NeedsRebase ("A fixup commit was found").data
          (.subject 1 1)
          [Context.subject_error c.subject (0, 6)
            ("Rebase fixup commits before pushing or merging").data]] := by
      unfold needs_rebase_issues
      rw [hsub]
      simp [ruleIgnored, hig, hfix]
    have hc2 : (validateFirstTwo c).issues =
        [Issue.error .NeedsRebase ("A fixup commit was found").data
          (.subject 1 1)
          [Context.subject_error c.subject (0, 6)
            ("Rebase fixup commits before pushing or merging").data]] := by
      show (c.issues ++ merge_commit_issues c) ++
        needs_rebase_issues (pushIssues merge_commit_issues c) = _
      have : needs_rebase_issues (pushIssues merge_commit_issues c) =
          needs_rebase_issues c := by
        unfold needs_rebase_issues
        rfl
      rw [this, hrebase, hmerge]
      rfl
    have hcond : (!hasIssue (validateFirstTwo c) .MergeCommit &&
        !hasIssue (validateFirstTwo c) .NeedsRebase) = false := by
      simp [hasIssue, hc2, Issue.error]
    have hmain := validate_eq_skip hcond
    have hchanges : changes_issues (validateFirstTwo c) =
        [Issue.error .DiffPresence ("No file changes found").data .diff
          [Context.diff_error
            ("0 files changed, 0 insertions(+), 0 deletions(-)").data
            (0, 48)
            ("Add changes to the commit or remove the commit").data]] := by
      unfold changes_issues
      have h1 : ruleIgnored (validateFirstTwo c) .DiffPresence = false := by
        show ruleIgnored c .DiffPresence = false
        simp [ruleIgnored, hig]
      have h2 : (validateFirstTwo c).has_changes = false := rfl
      rw [h1, h2]
      simp
    rw [hmain]
    show ((validateFirstTwo c).issues ++
      changes_issues (validateFirstTwo c)).map (fun i => i.rule) = _
    rw [hc2, hchanges]
    rfl

/-- C1 witness: the fresh fixup commit without changes gets exactly the
NeedsRebase and DiffPresence issues. -/
theorem C1_merge_rebase_precedence_witness :
    ((validate (Commit.new none none ("fixup! Fix bug").data [] false)).issues.map
      fun i => i.rule) = [.NeedsRebase, .DiffPresence] :=
  C1_merge_rebase_precedence.2 none none ("fixup! Fix bug").data (by decide)

/-- C2 witness: DiffPresence is suppressed by its directive even though its
trigger condition (no changes) is met. -/
theorem C2_suppression_amended_witness :
    (validate (Commit.new none none ("Rewrite the parser logic").data
      ("\nSome explanation body.\nlintje:disable DiffPresence").data
      false)).issues.filter
        (fun i => decide (i.rule = Rule.DiffPresence)) = [] :=
  C2_suppression_amended none none ("Rewrite the parser logic").data
    ("\nSome explanation body.\nlintje:disable DiffPresence").data
    false .DiffPresence (by decide) (by decide)

end Lintje

namespace Lintje

lemma utf8Len_cons (c : Char) (s : List Char) :
    utf8Len (c :: s) = c.utf8Size + utf8Len s := by
  simp [utf8Len]

lemma byteTake_eq_some_iff {l s : List Char} {n : Nat} :
    byteTake n l = some s ↔ s <+: l ∧ utf8Len s = n := by
  induction l generalizing n s with
  | nil =>
      unfold byteTake
      constructor
      · intro h
        split at h
        next hn =>
          cases h
          subst hn
          simp [utf8Len]
        next => cases h
      · rintro ⟨hpre, hlen⟩
        rw [List.prefix_nil] at hpre
        subst hpre
        simp [utf8Len] at hlen
        simp [hlen.symm, utf8Len]
  | cons c rest ih =>
      unfold byteTake
      constructor
      · intro h
        split at h
        next hn =>
          cases h
          subst hn
          simp [utf8Len]
        next hn =>
          split at h
          next hsz =>
            rcases Option.map_eq_some'.mp h with ⟨s', hs', rfl⟩
            rcases ih.mp hs' with ⟨hpre, hlen⟩
            refine ⟨List.cons_prefix_cons.mpr ⟨rfl, hpre⟩, ?_⟩
            rw [utf8Len_cons, hlen]
            omega
          next => cases h
      · rintro ⟨hpre, hlen⟩
        rcases List.prefix_cons_iff.mp hpre with rfl | ⟨s', rfl, hpre'⟩
        · simp [utf8Len] at hlen
          simp [hlen.symm]
        · rw [utf8Len_cons] at hlen
          have hpos := Char.utf8Size_pos c
          rw [if_neg (by omega)]
          rw [if_pos (by omega)]
          rw [Option.map_eq_some']
          exact ⟨s', ih.mpr ⟨hpre', by omega⟩, rfl⟩

lemma trimEnd_decomp (s : List Char) :
    ∃ ws : List Char, s = trimEnd s ++ ws ∧
      (∀ ch ∈ ws, ch.isWhitespace = true) := by
  refine ⟨(s.reverse.takeWhile Char.isWhitespace).reverse, ?_, ?_⟩
  · unfold trimEnd
    rw [← List.reverse_append, List.takeWhile_append_dropWhile,
      List.reverse_reverse]
  · intro ch hch
    rw [List.mem_reverse] at hch
    exact List.mem_takeWhile_imp hch

lemma trimEnd_last_not_white (s : List Char) {ch : Char}
    (h : (trimEnd s).getLast? = some ch) : ch.isWhitespace = false := by
  unfold trimEnd at h
  rw [List.getLast?_reverse] at h
  have := List.head?_dropWhile_not Char.isWhitespace s.reverse
  rw [h] at this
  simpa using this

lemma utf8Len_eq_length {s : List Char}
    (h : ∀ ch ∈ s, ch.utf8Size = 1) : utf8Len s = s.length := by
  induction s with
  | nil => rfl
  | cons c rest ih =>
      rw [utf8Len_cons, h c (by simp), ih fun ch hch => h ch (by simp [hch])]
      simp [Nat.add_comm]

lemma commit_new_short_sha (long : List Char) (email : Option (List Char))
    (subj msg : List Char) (hc : Bool) :
    (Commit.new (some long) email subj msg hc).short_sha =
      byteTake 7 long := by
  cases h : byteTake 7 long <;> simp [Commit.new, h]

/-- C7 (amended): the derived short SHA is the prefix of the long SHA
spanning exactly its first 7 UTF-8 bytes; when every character of the long
SHA is a 1-byte (ASCII) character — always true of real Git SHAs — this is
exactly the first 7 characters, with None when fewer than 7; with no long
SHA the short SHA is None.  The stored subject is the given subject with
all trailing whitespace removed (and so never ends in whitespace). -/
theorem C7_short_sha_subject (long subj msg : List Char)
    (email : Option (List Char)) (hc : Bool) :
    (∀ s : List Char,
      (Commit.new (some long) email subj msg hc).short_sha = some s ↔
        s <+: long ∧ utf8Len s = 7) ∧
    ((∀ ch ∈ long, ch.utf8Size = 1) →
      (Commit.new (some long) email subj msg hc).short_sha =
        if 7 ≤ long.length then some (long.take 7) else none) ∧
    ((Commit.new none email subj msg hc).short_sha = none) ∧
    (∃ ws : List Char,
      subj = (Commit.new (some long) email subj msg hc).subject ++ ws ∧
        ∀ ch ∈ ws, ch.isWhitespace = true) ∧
    (∀ ch : Char,
      (Commit.new (some long) email subj msg hc).subject.getLast? = some ch →
        ch.isWhitespace = false) := by
  refine ⟨?_, ?_, rfl, ?_, ?_⟩
  · intro s
    rw [commit_new_short_sha]
    exact byteTake_eq_some_iff
  · intro hascii
    rw [commit_new_short_sha]
    split
    next hlen =>
      rw [byteTake_eq_some_iff]
      refine ⟨List.take_prefix 7 long, ?_⟩
      rw [utf8Len_eq_length fun ch hch =>
        hascii ch (List.mem_of_mem_take hch)]
      simp [hlen]
    next hlen =>
      cases h : byteTake 7 long with
      | none => rfl
      | some s =>
          rcases byteTake_eq_some_iff.mp h with ⟨hpre, hl⟩
          rw [utf8Len_eq_length fun ch hch =>
            hascii ch (hpre.subset hch)] at hl
          have := hpre.length_le
          omega
  · exact trimEnd_decomp subj
  · intro ch h
    exact trimEnd_last_not_white subj h

/-- C7 (counterexample): a long SHA of 7 two-byte characters is not shorter
than 7 characters, yet the derived short SHA is None (byte 7 is not a
character boundary), contradicting the first-7-characters reading. -/
theorem C7_counterexample :
    (List.replicate 7 'é').length = 7 ∧
    (Commit.new (some (List.replicate 7 'é')) none [] [] true).short_sha =
      none := by
  constructor
  · decide
  · decide

/-- C7 witness: for the ASCII long SHA `abcdefgh` the short SHA is its
first 7 characters. -/
theorem C7_short_sha_subject_witness :
    (Commit.new (some ("abcdefgh").data) none ("Subject ").data [] true).short_sha =
      some ("abcdefg").data := by
  have h := (C7_short_sha_subject ("abcdefgh").data ("Subject ").data []
    none true).2.1 (by decide)
  simpa using h

end Lintje

namespace Lintje

/-! ## The ignore policy of src/git.rs -/

/-- Regex `.+ \(#\d+\)$` (`SUBJECT_WITH_SQUASH_PR`): the subject ends with a
squash-PR marker preceded by at least one non-newline character. -/
def subjectWithSquashPr (s : List Char) : Bool :=
  match s.reverse with
  | ')' :: rest =>
      let ds := rest.takeWhile Char.isDigit
      if ds.isEmpty then false
      else
        match rest.drop ds.length with
        | '#' :: '(' :: ' ' :: c :: _ => c ≠ '\n'
        | _ => false
  | _ => false

/-- Regex `^See merge request .+/.+!\d+$`
(`MESSAGE_CONTAINS_MERGE_REQUEST_REFERENCE`): multi-line mode is off, so the
anchors bind to the whole message — it matches only when the entire message
is a single merge-request reference line. -/
def messageIsMergeRequestRef (m : List Char) : Bool :=
  ("See merge request ").data.isPrefixOf m &&
    (let r := (m.drop 18).reverse
     let ds := r.takeWhile Char.isDigit
     !ds.isEmpty &&
       (match r.drop ds.length with
        | '!' :: h =>
            let hp := h.reverse
            !(hp.any fun ch => ch = '\n') &&
              ((hp.drop 1).dropLast.contains '/')
        | _ => false))

/-- The `ignored` function of src/git.rs. -/
def ignored (c : Commit) : Bool :=
  (match c.email with
   | some email => ("[bot]@users.noreply.github.com").data.isSuffixOf email
   | none => false) ||
  ("Merge tag ").data.isPrefixOf c.subject ||
  ("Merge pull request").data.isPrefixOf c.subject ||
  (("Merge branch ").data.isPrefixOf c.subject &&
    messageIsMergeRequestRef c.message) ||
  subjectWithSquashPr c.subject ||
  (("Merge branch ").data.isPrefixOf c.subject &&
    !subjectWithMergeRemoteBranch c.subject)

/-- `commit_for` of src/git.rs: construct the commit, mark it ignored when
the ignore policy applies (skipping validation), otherwise validate it. -/
def commit_for (sha email : Option (List Char)) (subject : List Char)
    (message : List (List Char)) (has_changes : Bool) : Commit :=
  let c := Commit.new sha email subject
    (List.intercalate ['\n'] message) has_changes
  if ignored c then { c with ignored := true } else validate c

/-- C10 (counterexample): a remote-merge commit whose multi-line message
CONTAINS a `See merge request org/repo!N` line is not ignored (the reference
regex is anchored to the whole message), and validation records a
MergeCommit issue, contradicting the claim that such a commit is ignored
with an empty issues list. -/
theorem C10_counterexample :
    (rustLines (List.intercalate ['\n']
      [("Intro").data, ("See merge request org/repo!1").data])).contains
        ("See merge request org/repo!1").data = true ∧
    (commit_for none none ("Merge branch 'x' of origin into main").data
      [("Intro").data, ("See merge request org/repo!1").data] true).ignored =
        false ∧
    ((commit_for none none ("Merge branch 'x' of origin into main").data
      [("Intro").data, ("See merge request org/repo!1").data] true).issues.map
        fun i => i.rule) = [.MergeCommit] := by
  refine ⟨by decide, by decide, by decide⟩

/-- C10 (amended): a parsed commit is marked ignored — with `validate` never
run, so its issues list stays empty — when its author email ends with the
bot suffix, or its subject starts with `Merge tag ` or `Merge pull request`,
or its subject carries a squash-PR marker, or it is a merge-branch commit
whose entire message is a single `See merge request org/repo!N` reference or
whose subject does not match the remote-merge pattern. -/
theorem C10_ignore_policy (sha email : Option (List Char))
    (subject : List Char) (message : List (List Char)) (hc : Bool)
    (h : (∃ e, email = some e ∧
            ("[bot]@users.noreply.github.com").data.isSuffixOf e = true) ∨
         ("Merge tag ").data.isPrefixOf (trimEnd subject) = true ∨
         ("Merge pull request").data.isPrefixOf (trimEnd subject) = true ∨
         subjectWithSquashPr (trimEnd subject) = true ∨
         (("Merge branch ").data.isPrefixOf (trimEnd subject) = true ∧
           (messageIsMergeRequestRef (List.intercalate ['\n'] message) = true ∨
            subjectWithMergeRemoteBranch (trimEnd subject) = false))) :
    (commit_for sha email subject message hc).ignored = true ∧
    (commit_for sha email subject message hc).issues = [] := by
  set c := Commit.new sha email subject
    (List.intercalate ['\n'] message) hc with hcdef
  have hsub : c.subject = trimEnd subject := rfl
  have hmsg : c.message = List.intercalate ['\n'] message := rfl
  have hemail : c.email = email := rfl
  have hign : ignored c = true := by
    unfold ignored
    rw [hsub, hmsg, hemail]
    rcases h with ⟨e, he, hbot⟩ | h | h | h | ⟨h1, h2 | h2⟩
    · subst he
      simp [hbot]
    · simp [h]
    · simp [h]
    · simp [h]
    · simp [h1, h2]
    · simp [h1, h2]
  unfold commit_for
  rw [← hcdef, if_pos hign]
  exact ⟨rfl, rfl⟩

/-- C10 witness: a `Merge pull request` commit is ignored and carries no
issues. -/
theorem C10_ignore_policy_witness :
    (commit_for none none
      ("Merge pull request #123 from tombruijn/repo").data
      [[], ("This is my message.").data] true).ignored = true ∧
    (commit_for none none
      ("Merge pull request #123 from tombruijn/repo").data
      [[], ("This is my message.").data] true).issues = [] :=
  C10_ignore_policy none none
    ("Merge pull request #123 from tombruijn/repo").data
    [[], ("This is my message.").data] true
    (Or.inr (Or.inr (Or.inl (by decide))))

end Lintje

namespace Lintje

lemma mem_subject_ticket_shape {y : Commit} {i : Issue}
    (h : i ∈ subject_ticket_number_issues y) :
    ∃ (b : Nat) (m : List Char),
      i.context =
        [Context.subject_error y.subject (b, b + utf8Len m)
          ("Remove the ticket number from the subject").data,
         Context.message_line
          (if (rustLines y.message).length = 0 then 3
           else (rustLines y.message).length + 2) [],
         Context.message_line_addition
          ((if (rustLines y.message).length = 0 then 3
            else (rustLines y.message).length + 2) + 1) m
          (0, utf8Len m)
          ("Move the ticket number to the message body").data] := by
  unfold subject_ticket_number_issues at h
  split at h
  next => simp at h
  next =>
    simp only [List.mem_append] at h
    rcases h with h | h <;>
    · split at h
      next b m hfind =>
        simp only [List.mem_singleton] at h
        subst h
        exact ⟨b, m, by simp [subjectTicketIssue, Issue.error]⟩
      next => simp at h

lemma mem_subject_build_tag_shape {y : Commit} {i : Issue}
    (h : i ∈ subject_build_tag_issues y) :
    ∃ (b : Nat) (m : List Char),
      i.context =
        [Context.subject_error y.subject (b, b + utf8Len m)
          ("Remove the build tag from the subject").data,
         Context.message_line_addition
          (if (rustLines y.message).length = 0 then 3
           else (rustLines y.message).length + 2) m
          (0, utf8Len m)
          ("Move build tag to message body").data] := by
  unfold subject_build_tag_issues at h
  split at h
  next => simp at h
  next =>
    split at h
    next b m hfind =>
      simp only [List.mem_singleton] at h
      subst h
      exact ⟨b, m, by simp [Issue.error]⟩
    next => simp at h

/-- C6 (amended): every SubjectTicketNumber issue previews the suggested
relocation with a blank message line at base and an addition span at
base + 1, where base is message_line_count + 2 for a non-empty message and
3 for an empty one; every SubjectBuildTag issue instead carries the addition
span directly at base with no blank line; the commit's subject and message
are left unchanged. -/
theorem C6_relocation_context (c : Commit) (hempty : c.issues = []) :
    (validate c).subject = c.subject ∧
    (validate c).message = c.message ∧
    ∀ i ∈ (validate c).issues,
      (i.rule = .SubjectTicketNumber → ∃ (b : Nat) (m : List Char),
        i.context =
          [Context.subject_error c.subject (b, b + utf8Len m)
            ("Remove the ticket number from the subject").data,
           Context.message_line
            (if (rustLines c.message).length = 0 then 3
             else (rustLines c.message).length + 2) [],
           Context.message_line_addition
            ((if (rustLines c.message).length = 0 then 3
              else (rustLines c.message).length + 2) + 1) m
            (0, utf8Len m)
            ("Move the ticket number to the message body").data]) ∧
      (i.rule = .SubjectBuildTag → ∃ (b : Nat) (m : List Char),
        i.context =
          [Context.subject_error c.subject (b, b + utf8Len m)
            ("Remove the build tag from the subject").data,
           Context.message_line_addition
            (if (rustLines c.message).length = 0 then 3
             else (rustLines c.message).length + 2) m
            (0, utf8Len m)
            ("Move build tag to message body").data]) := by
  refine ⟨validate_subject c, validate_message c, ?_⟩
  intro i hi
  have hfsub : (validateFirstTwo c).subject = c.subject := rfl
  have hfmsg : (validateFirstTwo c).message = c.message := rfl
  by_cases hcond : (!hasIssue (validateFirstTwo c) .MergeCommit &&
      !hasIssue (validateFirstTwo c) .NeedsRebase) = true
  · rw [validate_eq_full hcond] at hi
    rcases List.mem_append.mp hi with hi | hi
    · rw [validateInnerBlock_eq_applyChecks] at hi
      rcases applyChecks_mem hi with hi | ⟨g, hg, y, hys, hym, _, hmem⟩
      · rw [validateFirstTwo_eq_applyChecks] at hi
        rcases applyChecks_mem hi with hi | ⟨g, hg, y, _, _, _, hmem⟩
        · rw [hempty] at hi
          simp at hi
        · simp only [List.mem_cons, List.mem_singleton] at hg
          rcases hg with rfl | rfl | hg
          · have hr := mem_merge_commit_issues hmem
            exact ⟨fun h => absurd (h ▸ hr) (by decide),
                   fun h => absurd (h ▸ hr) (by decide)⟩
          · have hr := mem_needs_rebase_issues hmem
            exact ⟨fun h => absurd (h ▸ hr) (by decide),
                   fun h => absurd (h ▸ hr) (by decide)⟩
          · simp at hg
      · have hys' : y.subject = c.subject := hys.trans hfsub
        have hym' : y.message = c.message := hym.trans hfmsg
        simp only [innerChecks, List.mem_cons, List.mem_singleton] at hg
        rcases hg with rfl | rfl | rfl | rfl | rfl | rfl | rfl | rfl | rfl |
          rfl | rfl | rfl | rfl | hg
        · have hr := mem_subject_cliche_issues hmem
          exact ⟨fun h => absurd (h ▸ hr) (by decide),
                 fun h => absurd (h ▸ hr) (by decide)⟩
        · have hr := mem_subject_line_length_issues hmem
          exact ⟨fun h => absurd (h ▸ hr) (by decide),
                 fun h => absurd (h ▸ hr) (by decide)⟩
        · have hr := mem_subject_mood_issues hmem
          exact ⟨fun h => absurd (h ▸ hr) (by decide),
                 fun h => absurd (h ▸ hr) (by decide)⟩
        · have hr := mem_subject_whitespace_issues hmem
          exact ⟨fun h => absurd (h ▸ hr) (by decide),
                 fun h => absurd (h ▸ hr) (by decide)⟩
        · have hr := mem_subject_prefix_issues hmem
          exact ⟨fun h => absurd (h ▸ hr) (by decide),
                 fun h => absurd (h ▸ hr) (by decide)⟩
        · have hr := mem_subject_capitalization_issues hmem
          exact ⟨fun h => absurd (h ▸ hr) (by decide),
                 fun h => absurd (h ▸ hr) (by decide)⟩
        · have hr := mem_subject_build_tag_issues hmem
          refine ⟨fun h => absurd (h ▸ hr) (by decide), fun _ => ?_⟩
          obtain ⟨b, m, hctx⟩ := mem_subject_build_tag_shape hmem
          rw [hys', hym'] at hctx
          exact ⟨b, m, hctx⟩
        · have hr := mem_subject_punctuation_issues hmem
          exact ⟨fun h => absurd (h ▸ hr) (by decide),
                 fun h => absurd (h ▸ hr) (by decide)⟩
        · have hr := mem_subject_ticket_number_issues hmem
          refine ⟨fun _ => ?_, fun h => absurd (h ▸ hr) (by decide)⟩
          obtain ⟨b, m, hctx⟩ := mem_subject_ticket_shape hmem
          rw [hys', hym'] at hctx
          exact ⟨b, m, hctx⟩
        · have hr := mem_message_ticket_number_issues hmem
          exact ⟨fun h => absurd (h ▸ hr) (by decide),
                 fun h => absurd (h ▸ hr) (by decide)⟩
        · have hr := mem_message_empty_first_line_issues hmem
          exact ⟨fun h => absurd (h ▸ hr) (by decide),
                 fun h => absurd (h ▸ hr) (by decide)⟩
        · have hr := mem_message_presence_issues hmem
          exact ⟨fun h => absurd (h ▸ hr) (by decide),
                 fun h => absurd (h ▸ hr) (by decide)⟩
        · have hr := mem_message_line_length_issues hmem
          exact ⟨fun h => absurd (h ▸ hr) (by decide),
                 fun h => absurd (h ▸ hr) (by decide)⟩
        · simp at hg
    · have hr := mem_changes_issues hi
      exact ⟨fun h => absurd (h ▸ hr) (by decide),
             fun h => absurd (h ▸ hr) (by decide)⟩
  · rw [validate_eq_skip (by simpa using hcond)] at hi
    rcases List.mem_append.mp hi with hi | hi
    · rw [validateFirstTwo_eq_applyChecks] at hi
      rcases applyChecks_mem hi with hi | ⟨g, hg, y, _, _, _, hmem⟩
      · rw [hempty] at hi
        simp at hi
      · simp only [List.mem_cons, List.mem_singleton] at hg
        rcases hg with rfl | rfl | hg
        · have hr := mem_merge_commit_issues hmem
          exact ⟨fun h => absurd (h ▸ hr) (by decide),
                 fun h => absurd (h ▸ hr) (by decide)⟩
        · have hr := mem_needs_rebase_issues hmem
          exact ⟨fun h => absurd (h ▸ hr) (by decide),
                 fun h => absurd (h ▸ hr) (by decide)⟩
        · simp at hg
    · have hr := mem_changes_issues hi
      exact ⟨fun h => absurd (h ▸ hr) (by decide),
             fun h => absurd (h ▸ hr) (by decide)⟩

/-- C6 (counterexample): the SubjectBuildTag issue for a commit with a
two-line message (base = 4) has exactly two context entries — the subject
span and an addition at line 4 — with no blank message line and no entry at
base + 1, contradicting the claimed blank-at-base / addition-at-base-plus-one
layout for build tags. -/
theorem C6_counterexample :
    ((validate (Commit.new none none ("Add thing [skip ci] here").data
      ("\nSome explanation body here.").data true)).issues.headD
        (Issue.error .MergeCommit [] .diff [])).rule = .SubjectBuildTag ∧
    (rustLines (Commit.new none none ("Add thing [skip ci] here").data
      ("\nSome explanation body here.").data true).message).length = 2 ∧
    (((validate (Commit.new none none ("Add thing [skip ci] here").data
      ("\nSome explanation body here.").data true)).issues.headD
        (Issue.error .MergeCommit [] .diff [])).context.map
          fun ctx => (ctx.kind, ctx.line)) =
      [(.subjectError, none), (.messageLineAddition, some 4)] := by
  refine ⟨by decide, by decide, by decide⟩

/-- C6 witness: the ticket issue of `Fix JIRA-123 about email validation`
with an empty message carries the blank line at 3 and the addition at 4. -/
theorem C6_relocation_context_witness :
    ∃ (b : Nat) (m : List Char),
      ((validate (Commit.new none none
        ("Fix JIRA-123 about email validation").data [] true)).issues.headD
          (Issue.error .MergeCommit [] .diff [])).context =
        [Context.subject_error
          (Commit.new none none
            ("Fix JIRA-123 about email validation").data [] true).subject
          (b, b + utf8Len m)
          ("Remove the ticket number from the subject").data,
         Context.message_line
          (if (rustLines (Commit.new none none
            ("Fix JIRA-123 about email validation").data [] true).message).length
              = 0 then 3
           else (rustLines (Commit.new none none
            ("Fix JIRA-123 about email validation").data [] true).message).length
              + 2) [],
         Context.message_line_addition
          ((if (rustLines (Commit.new none none
            ("Fix JIRA-123 about email validation").data [] true).message).length
              = 0 then 3
            else (rustLines (Commit.new none none
             ("Fix JIRA-123 about email validation").data [] true).message).length
              + 2) + 1) m
          (0, utf8Len m)
          ("Move the ticket number to the message body").data] := by
  have h := (C6_relocation_context (Commit.new none none
    ("Fix JIRA-123 about email validation").data [] true) rfl).2.2
    ((validate (Commit.new none none
      ("Fix JIRA-123 about email validation").data [] true)).issues.headD
        (Issue.error .MergeCommit [] .diff [])) (by decide)
  exact h.1 (by decide)

end Lintje

namespace Lintje

lemma lineLengthStatsGo_width (limit : Nat) (s : List Char) :
    ∀ (accW accB accC : Nat) (found : Option (Nat × Nat)),
      (lineLengthStatsGo limit s accW accB accC found).1 =
        accW + display_width s := by
  induction s with
  | nil =>
      intro accW accB accC found
      cases found <;> simp [lineLengthStatsGo, display_width]
  | cons c rest ih =>
      intro accW accB accC found
      rw [lineLengthStatsGo.eq_def]
      try simp only
      rw [ih]
      simp [display_width, charWidth]
      ring

lemma line_length_stats_width (s : List Char) (limit : Nat) :
    (line_length_stats s limit).1 = display_width s := by
  unfold line_length_stats
  rw [lineLengthStatsGo_width]
  simp

lemma sll_empty_of_width50 {y : Commit}
    (h : display_width y.subject = 50) :
    subject_line_length_issues y = [] := by
  unfold subject_line_length_issues
  split
  next => rfl
  next =>
    have hw : (line_length_stats y.subject 50).1 = 50 :=
      (line_length_stats_width y.subject 50).trans h
    rw [if_neg (by omega), if_neg (by omega), if_neg (by omega)]

lemma applyChecks_issues_append (fs : List (Commit → List Issue))
    (x : Commit) : ∃ t, (applyChecks fs x).issues = x.issues ++ t := by
  induction fs generalizing x with
  | nil => exact ⟨[], by simp [applyChecks]⟩
  | cons f fs ih =>
      rcases ih (pushIssues f x) with ⟨t, ht⟩
      refine ⟨f x ++ t, ?_⟩
      show (applyChecks fs (pushIssues f x)).issues = _
      rw [ht]
      simp [pushIssues]

lemma applyChecks_append_split (fs1 fs2 : List (Commit → List Issue))
    (x : Commit) :
    applyChecks (fs1 ++ fs2) x = applyChecks fs2 (applyChecks fs1 x) := by
  induction fs1 generalizing x with
  | nil => simp [applyChecks]
  | cons f fs ih => simp [applyChecks, ih]

lemma validate_issues_from_first_two (c : Commit) :
    ∃ t, (validate c).issues = (validateFirstTwo c).issues ++ t := by
  unfold validate
  try simp only
  split
  · show ∃ t,
      (validate_changes (validateInnerBlock (validateFirstTwo c))).issues = _
    unfold validate_changes
    apply push_extends
    rw [validateInnerBlock_eq_applyChecks]
    exact applyChecks_issues_append innerChecks (validateFirstTwo c)
  · show ∃ t, (validate_changes (validateFirstTwo c)).issues = _
    unfold validate_changes
    apply push_extends
    exact ⟨[], by simp⟩

lemma hasIssue_append_left {x : Commit} {t : List Issue} {y : Commit}
    {R : Rule} (heq : y.issues = x.issues ++ t)
    (h : hasIssue x R = true) : hasIssue y R = true := by
  simp only [hasIssue, List.any_eq_true] at h ⊢
  rcases h with ⟨i, hi, hr⟩
  exact ⟨i, by simp [heq, hi], hr⟩

lemma hasIssue_validate_of_firstTwo {c : Commit} {R : Rule}
    (h : hasIssue (validateFirstTwo c) R = true) :
    hasIssue (validate c) R = true := by
  rcases validate_issues_from_first_two c with ⟨t, ht⟩
  exact hasIssue_append_left ht h

lemma validate_issues_from_sll (c : Commit)
    (hcond : (!hasIssue (validateFirstTwo c) .MergeCommit &&
      !hasIssue (validateFirstTwo c) .NeedsRebase) = true) :
    ∃ t, (validate c).issues =
      (pushIssues subject_line_length_issues
        (pushIssues subject_cliche_issues (validateFirstTwo c))).issues ++ t := by
  rw [validate_eq_full hcond, validateInnerBlock_eq_applyChecks]
  have hsplit : applyChecks innerChecks (validateFirstTwo c) =
      applyChecks [subject_mood_issues,
        subject_whitespace_issues, subject_prefix_issues,
        subject_capitalization_issues, subject_build_tag_issues,
        subject_punctuation_issues, subject_ticket_number_issues,
        message_ticket_number_issues, message_empty_first_line_issues,
        message_presence_issues, message_line_length_issues]
        (pushIssues subject_line_length_issues
          (pushIssues subject_cliche_issues (validateFirstTwo c))) := rfl
  rw [hsplit]
  unfold validate_changes
  apply push_extends
  exact applyChecks_issues_append _ _


/-- C3 (amended): a subject of display width exactly 50 never yields a
SubjectLength issue; a subject of display width 51 — provided no MergeCommit
or NeedsRebase issue fired, SubjectLength is not suppressed and no
SubjectCliche issue is present — yields a SubjectLength issue whose message
reports the subject as 51 characters wide and whose position is Subject
line 1, column char_count_at_width_limit + 1 (equal to 51 when every
character is narrow). -/
theorem C3_subject_length_boundary :
    (∀ c : Commit, c.issues = [] → display_width c.subject = 50 →
      ∀ i ∈ (validate c).issues, i.rule ≠ .SubjectLength) ∧
    (∀ c : Commit, c.issues = [] → display_width c.subject = 51 →
      hasIssue (validate c) .MergeCommit = false →
      hasIssue (validate c) .NeedsRebase = false →
      ruleIgnored c .SubjectLength = false →
      hasIssue (validate c) .SubjectCliche = false →
      ∃ i ∈ (validate c).issues, i.rule = .SubjectLength ∧
        i.message = ("The subject of `51` characters wide is too long").data ∧
        i.position = .subject 1
          ((line_length_stats c.subject 50).2.char_count + 1)) := by
  constructor
  · intro c hempty h50
    intro i hi
    have hfsub : (validateFirstTwo c).subject = c.subject := rfl
    by_cases hcond : (!hasIssue (validateFirstTwo c) .MergeCommit &&
        !hasIssue (validateFirstTwo c) .NeedsRebase) = true
    · rw [validate_eq_full hcond] at hi
      rcases List.mem_append.mp hi with hi | hi
      · rw [validateInnerBlock_eq_applyChecks] at hi
        rcases applyChecks_mem hi with hi | ⟨g, hg, y, hys, _, _, hmem⟩
        · rw [validateFirstTwo_eq_applyChecks] at hi
          rcases applyChecks_mem hi with hi | ⟨g, hg, y, _, _, _, hmem⟩
          · rw [hempty] at hi
            simp at hi
          · simp only [List.mem_cons, List.mem_singleton] at hg
            rcases hg with rfl | rfl | hg
            · have hr := mem_merge_commit_issues hmem
              exact fun h => absurd (h ▸ hr) (by decide)
            · have hr := mem_needs_rebase_issues hmem
              exact fun h => absurd (h ▸ hr) (by decide)
            · simp at hg
        · simp only [innerChecks, List.mem_cons, List.mem_singleton] at hg
          rcases hg with rfl | rfl | rfl | rfl | rfl | rfl | rfl | rfl | rfl |
            rfl | rfl | rfl | rfl | hg
          · have hr := mem_subject_cliche_issues hmem
            exact fun h => absurd (h ▸ hr) (by decide)
          · rw [sll_empty_of_width50 (by rw [hys.trans hfsub]; exact h50)] at hmem
            simp at hmem
          · have hr := mem_subject_mood_issues hmem
            exact fun h => absurd (h ▸ hr) (by decide)
          · have hr := mem_subject_whitespace_issues hmem
            exact fun h => absurd (h ▸ hr) (by decide)
          · have hr := mem_subject_prefix_issues hmem
            exact fun h => absurd (h ▸ hr) (by decide)
          · have hr := mem_subject_capitalization_issues hmem
            exact fun h => absurd (h ▸ hr) (by decide)
          · have hr := mem_subject_build_tag_issues hmem
            exact fun h => absurd (h ▸ hr) (by decide)
          · have hr := mem_subject_punctuation_issues hmem
            exact fun h => absurd (h ▸ hr) (by decide)
          · have hr := mem_subject_ticket_number_issues hmem
            exact fun h => absurd (h ▸ hr) (by decide)
          · have hr := mem_message_ticket_number_issues hmem
            exact fun h => absurd (h ▸ hr) (by decide)
          · have hr := mem_message_empty_first_line_issues hmem
            exact fun h => absurd (h ▸ hr) (by decide)
          · have hr := mem_message_presence_issues hmem
            exact fun h => absurd (h ▸ hr) (by decide)
          · have hr := mem_message_line_length_issues hmem
            exact fun h => absurd (h ▸ hr) (by decide)
          · simp at hg
      · have hr := mem_changes_issues hi
        exact fun h => absurd (h ▸ hr) (by decide)
    · rw [validate_eq_skip (by simpa using hcond)] at hi
      rcases List.mem_append.mp hi with hi | hi
      · rw [validateFirstTwo_eq_applyChecks] at hi
        rcases applyChecks_mem hi with hi | ⟨g, hg, y, _, _, _, hmem⟩
        · rw [hempty] at hi
          simp at hi
        · simp only [List.mem_cons, List.mem_singleton] at hg
          rcases hg with rfl | rfl | hg
          · have hr := mem_merge_commit_issues hmem
            exact fun h => absurd (h ▸ hr) (by decide)
          · have hr := mem_needs_rebase_issues hmem
            exact fun h => absurd (h ▸ hr) (by decide)
          · simp at hg
      · have hr := mem_changes_issues hi
        exact fun h => absurd (h ▸ hr) (by decide)
  · intro c hempty h51 hM hN hIgn hCl
    have hcond : (!hasIssue (validateFirstTwo c) .MergeCommit &&
        !hasIssue (validateFirstTwo c) .NeedsRebase) = true := by
      cases hb1 : hasIssue (validateFirstTwo c) .MergeCommit
      · cases hb2 : hasIssue (validateFirstTwo c) .NeedsRebase
        · rfl
        · rw [hasIssue_validate_of_firstTwo hb2] at hN
          cases hN
      · rw [hasIssue_validate_of_firstTwo hb1] at hM
        cases hM
    set y3 := pushIssues subject_cliche_issues (validateFirstTwo c) with hy3
    have hy3subj : y3.subject = c.subject := rfl
    have hy3ign : y3.ignored_rules = c.ignored_rules := rfl
    have hy3cl : hasIssue y3 .SubjectCliche = false := by
      cases hb : hasIssue y3 .SubjectCliche
      · rfl
      · exfalso
        rcases validate_issues_from_sll c hcond with ⟨t, ht⟩
        have : hasIssue (validate c) .SubjectCliche = true := by
          apply hasIssue_append_left ht
          apply hasIssue_append_left
            (pushIssues_issues subject_line_length_issues y3) hb
        rw [this] at hCl
        cases hCl
    have hsll : subject_line_length_issues y3 =
        [Issue.error .SubjectLength
          (("The subject of `").data ++ natChars 51 ++
            ("` characters wide is too long").data)
          (.subject 1 ((line_length_stats c.subject 50).2.char_count + 1))
          [Context.subject_error c.subject
            ((line_length_stats c.subject 50).2.bytes_index,
              utf8Len c.subject)
            ("Shorten the subject to a maximum width of 50 characters").data]] := by
      unfold subject_line_length_issues
      rw [if_neg]
      · have hw : (line_length_stats y3.subject 50).1 = 51 := by
          rw [line_length_stats_width, hy3subj, h51]
        try simp only
        rw [if_neg (by omega), if_pos (by omega), hw, hy3subj]
      · show ¬ (ruleIgnored y3 .SubjectLength || hasIssue y3 .SubjectCliche) = true
        have : ruleIgnored y3 .SubjectLength = false := hIgn
        rw [this, hy3cl]
        simp
    rcases validate_issues_from_sll c hcond with ⟨t, ht⟩
    have hmsgeq : (("The subject of `").data ++ natChars 51 ++
        ("` characters wide is too long").data) =
        ("The subject of `51` characters wide is too long").data := by decide
    refine ⟨Issue.error .SubjectLength
        (("The subject of `").data ++ natChars 51 ++
          ("` characters wide is too long").data)
        (.subject 1 ((line_length_stats c.subject 50).2.char_count + 1))
        [Context.subject_error c.subject
          ((line_length_stats c.subject 50).2.bytes_index, utf8Len c.subject)
          ("Shorten the subject to a maximum width of 50 characters").data],
      ?_, rfl, hmsgeq, rfl⟩
    rw [ht, pushIssues_issues, hsll]
    simp

/-- C3 (counterexample): a subject of display width 51 that starts with
`fixup!` gets no SubjectLength issue at all — validation stops at
NeedsRebase — contradicting the claim that every width-51 subject yields a
SubjectLength issue. -/
theorem C3_counterexample :
    display_width (Commit.new none none
      (("fixup! ").data ++ List.replicate 44 'a') [] true).subject = 51 ∧
    ((validate (Commit.new none none
      (("fixup! ").data ++ List.replicate 44 'a') [] true)).issues.map
        fun i => i.rule) = [.NeedsRebase] := by
  refine ⟨by decide, by decide⟩

/-- C3 witness: a 51-character ASCII subject fires SubjectLength with the
width-51 message at column 51. -/
theorem C3_subject_length_boundary_witness :
    ∃ i ∈ (validate (Commit.new none none (List.replicate 51 'a')
        ("\nA good descriptive message body.").data true)).issues,
      i.rule = .SubjectLength ∧
      i.message = ("The subject of `51` characters wide is too long").data ∧
      i.position = .subject 1
        ((line_length_stats (Commit.new none none (List.replicate 51 'a')
          ("\nA good descriptive message body.").data true).subject
            50).2.char_count + 1) :=
  C3_subject_length_boundary.2
    (Commit.new none none (List.replicate 51 'a')
      ("\nA good descriptive message body.").data true)
    rfl (by decide) (by decide) (by decide) (by decide) (by decide)

end Lintje

namespace Lintje

/-- The update of `previous_line_was_empty_line`: skipped (keeping the old
value) when the line is inside a code block or is an exempt over-width URL
line, matching the `continue` paths of the loop. -/
def mllNextPe (st' : CodeBlockStyle) (line : List Char) (pe : Bool) : Bool :=
  if st' ≠ CodeBlockStyle.none then pe
  else if 72 < (line_length_stats line 72).1 && urlIsMatch line then pe
  else (trimBoth line).isEmpty

/-- The per-line code-block states of the loop, one entry per line, each the
state in force when that line's width check is decided. -/
def mllStates (st : CodeBlockStyle) (pe : Bool) :
    List (List Char) → List CodeBlockStyle
  | [] => []
  | raw :: rest =>
      let line := trimEnd raw
      let st' := nextCodeBlockStyle st pe line
      st' :: mllStates st' (mllNextPe st' line pe) rest

lemma messageLineLengthGo_cons (raw : List Char) (rest : List (List Char))
    (idx : Nat) (st : CodeBlockStyle) (pe : Bool) :
    messageLineLengthGo (raw :: rest) idx st pe =
      (if nextCodeBlockStyle st pe (trimEnd raw) = CodeBlockStyle.none ∧
          72 < (line_length_stats (trimEnd raw) 72).1 ∧
          urlIsMatch (trimEnd raw) = false then
        [mkLineLengthIssue idx (trimEnd raw)
          (line_length_stats (trimEnd raw) 72).2]
      else []) ++
      messageLineLengthGo rest (idx + 1)
        (nextCodeBlockStyle st pe (trimEnd raw))
        (mllNextPe (nextCodeBlockStyle st pe (trimEnd raw)) (trimEnd raw) pe) := by
  rw [messageLineLengthGo]
  try simp only
  by_cases h1 : nextCodeBlockStyle st pe (trimEnd raw) = CodeBlockStyle.none
  · rw [if_neg (by simp [h1])]
    by_cases h2 : 72 < (line_length_stats (trimEnd raw) 72).1
    · rw [if_pos h2]
      by_cases h3 : urlIsMatch (trimEnd raw)
      · rw [if_pos h3]
        rw [if_neg (by simp [h3]), mllNextPe, if_neg (by simp [h1]),
          if_pos (by simp [h2, h3])]
        simp
      · rw [if_neg (by simp [h3]),
          if_pos ⟨h1, h2, by simp [h3]⟩, mllNextPe,
          if_neg (by simp [h1]), if_neg (by simp [h2, h3])]
        simp
    · rw [if_neg h2]
      rw [if_neg (by simp [h1, h2]), mllNextPe, if_neg (by simp [h1]),
        if_neg (by simp [h2])]
      simp
  · rw [if_pos (by simp [h1]), if_neg (by simp [h1]), mllNextPe,
      if_pos (by simp [h1])]
    simp

lemma messageLineLengthGo_mem_iff (lines : List (List Char)) :
    ∀ (idx : Nat) (st : CodeBlockStyle) (pe : Bool) (i : Issue),
    i ∈ messageLineLengthGo lines idx st pe ↔
      ∃ (j : Nat) (lj : List Char), lines.get? j = some lj ∧
        (mllStates st pe lines).get? j = some CodeBlockStyle.none ∧
        72 < (line_length_stats (trimEnd lj) 72).1 ∧
        urlIsMatch (trimEnd lj) = false ∧
        i = mkLineLengthIssue (idx + j) (trimEnd lj)
          (line_length_stats (trimEnd lj) 72).2 := by
  induction lines with
  | nil =>
      intro idx st pe i
      simp [messageLineLengthGo, mllStates]
  | cons raw rest ih =>
      intro idx st pe i
      rw [messageLineLengthGo_cons, List.mem_append]
      constructor
      · rintro (h | h)
        · split at h
          next hc =>
            simp only [List.mem_singleton] at h
            exact ⟨0, raw, rfl, by simp [mllStates, hc.1], hc.2.1, hc.2.2,
              by simpa using h⟩
          next => simp at h
        · rcases (ih (idx + 1) _ _ i).mp h with ⟨j, lj, h1, h2, h3, h4, h5⟩
          refine ⟨j + 1, lj, by simpa using h1, ?_, h3, h4, ?_⟩
          · simpa [mllStates] using h2
          · rw [h5]
            congr 1
            omega
      · rintro ⟨j, lj, h1, h2, h3, h4, h5⟩
        cases j with
        | zero =>
            left
            have hraw : lj = raw := by simpa using h1.symm
            subst hraw
            have hst : nextCodeBlockStyle st pe (trimEnd lj) =
                CodeBlockStyle.none := by
              simpa [mllStates] using h2
            rw [if_pos ⟨hst, h3, h4⟩]
            simp [h5]
        | succ j' =>
            right
            rw [ih (idx + 1) _ _ i]
            refine ⟨j', lj, by simpa using h1, by simpa [mllStates] using h2,
              h3, h4, ?_⟩
            rw [h5]
            congr 1
            omega

/-- C5: for every commit message, the MessageLineLength check (the issue
list computed by `validate_message_line_length` when the rule is not
suppressed) exempts every line whose code-block state is Fenced — in
particular every line strictly inside a fenced block opened by optional
whitespace, three backticks and an optional language word — while an
over-width line processed in the None state (for instance the same line
after the closing fence) yields an issue at line physical_index + 2, column
char_count_at_width_limit + 1; over-width lines containing an http(s) URL
token are exempt in every state. -/
theorem C5_message_line_length_code_blocks (message : List Char) :
    (∀ j, (mllStates .none false (rustLines message)).get? j =
        some CodeBlockStyle.fenced →
      ∀ i ∈ messageLineLengthGo (rustLines message) 0 .none false,
        ∀ col, i.position ≠ .messageLine (j + 2) col) ∧
    (∀ (j : Nat) (lj : List Char), (rustLines message).get? j = some lj →
      (mllStates .none false (rustLines message)).get? j =
        some CodeBlockStyle.none →
      72 < (line_length_stats (trimEnd lj) 72).1 →
      urlIsMatch (trimEnd lj) = false →
      ∃ i ∈ messageLineLengthGo (rustLines message) 0 .none false,
        i.rule = .MessageLineLength ∧
        i.position = .messageLine (j + 2)
          ((line_length_stats (trimEnd lj) 72).2.char_count + 1)) ∧
    (∀ (j : Nat) (lj : List Char), (rustLines message).get? j = some lj →
      urlIsMatch (trimEnd lj) = true →
      ∀ i ∈ messageLineLengthGo (rustLines message) 0 .none false,
        ∀ col, i.position ≠ .messageLine (j + 2) col) := by
  refine ⟨?_, ?_, ?_⟩
  · intro j hst i hi col heq
    rcases (messageLineLengthGo_mem_iff _ _ _ _ _).mp hi with
      ⟨j', lj', h1, h2, h3, h4, h5⟩
    rw [h5] at heq
    simp only [mkLineLengthIssue, Issue.error, Position.messageLine.injEq] at heq
    have hj : j' = j := by omega
    rw [hj, hst] at h2
    simp at h2
  · intro j lj h1 h2 h3 h4
    refine ⟨mkLineLengthIssue (0 + j) (trimEnd lj)
      (line_length_stats (trimEnd lj) 72).2, ?_, rfl, ?_⟩
    · exact (messageLineLengthGo_mem_iff _ _ _ _ _).mpr
        ⟨j, lj, h1, h2, h3, h4, rfl⟩
    · simp [mkLineLengthIssue, Issue.error]
  · intro j lj h1 hurl i hi col heq
    rcases (messageLineLengthGo_mem_iff _ _ _ _ _).mp hi with
      ⟨j', lj', h1', h2, h3, h4, h5⟩
    rw [h5] at heq
    simp only [mkLineLengthIssue, Issue.error, Position.messageLine.injEq] at heq
    have hj : j' = j := by omega
    rw [hj, h1] at h1'
    have hlj : lj' = lj := by simpa using h1'.symm
    rw [hlj] at h4
    rw [h4] at hurl
    cases hurl

/-- C5 witness: in the spec's example a 73-character line inside a fenced
`elixir` block passes, and the same line after the closing fence fails at
line 6, column 73. -/
theorem C5_message_line_length_code_blocks_witness :
    (∀ i ∈ messageLineLengthGo (rustLines (("\n```elixir\n").data ++
        List.replicate 73 'x' ++ ("\n```\n").data ++
        List.replicate 73 'x')) 0 .none false,
      ∀ col, i.position ≠ .messageLine 4 col) ∧
    (∃ i ∈ messageLineLengthGo (rustLines (("\n```elixir\n").data ++
        List.replicate 73 'x' ++ ("\n```\n").data ++
        List.replicate 73 'x')) 0 .none false,
      i.rule = .MessageLineLength ∧
      i.position = .messageLine 6
        ((line_length_stats (trimEnd (List.replicate 73 'x'))
          72).2.char_count + 1)) := by
  constructor
  · intro i hi col
    exact (C5_message_line_length_code_blocks (("\n```elixir\n").data ++
      List.replicate 73 'x' ++ ("\n```\n").data ++
      List.replicate 73 'x')).1 2 (by decide) i hi col
  · exact (C5_message_line_length_code_blocks (("\n```elixir\n").data ++
      List.replicate 73 'x' ++ ("\n```\n").data ++
      List.replicate 73 'x')).2.1 4 (List.replicate 73 'x') (by decide)
      (by decide) (by decide) (by decide)

end Lintje
